import Mathlib

/-!
FG_NET: pooled rockets, firing protocol and hit resolution

A shallow embedding of `Source/FGNet/FGRocket.cpp` and
`Source/FGNet/Player/FGPlayer.{h,cpp}`.

Conventions of the embedding.

* One value of `AFGPlayer` is the copy of one vehicle on one process; its
  `LocalRole` and `bLocallyControlled` say which process that is.
* A finite `float` value is the rational number it denotes (`ℚ`).  Float
  arithmetic rounds, so `+`, `-`, `*`, `/` and `Pow` on floats are not the exact
  operations but the fields `FAdd`, `FSub`, `FMul`, `FDiv` and `Pow` of `Engine`,
  about which nothing is assumed: what is proved for every `Engine` holds
  whatever these operations return, in particular for single-precision
  arithmetic.  Comparison, `Abs`,
  unary minus and assignment are exact.  A float literal is the
  single-precision number it denotes: `0.9f` is 15099494 / 16777216.  Values
  that are not finite (NaN, infinities) are not represented; the one division
  of the code, in `AFGPlayer::Tick`, is followed through a zero divisor by
  `ClampAbsDiv`.
* `int32` is `Int`.  The compound assignments `+=` and `-=` with an `int32`
  operand are reduced to the `int32` range by `wrap32` (two's complement, what
  the compiled code does on overflow); the decrement `x--` and the test
  `(x - 1) < 0` are exact: they leave the `int32` range only from the least
  `int32`.
* An `AFGRocket*` handled by a vehicle is `Option Nat`: `none` is `nullptr`,
  `some i` is the rocket stored in slot `i` of that vehicle's
  `RocketInstances`.  Dereferencing a pointer that does not resolve to a rocket
  makes the operation return `none` (the C++ behaviour is undefined there).
* Every member function returns the new state together with the list of calls
  it made that are visible outside the object (remote procedure calls and
  Blueprint events), in program order.
* Engine functions whose code is not part of the repository (quaternion
  interpolation, vector/rotator conversions, the movement component) are the
  fields of `Engine`; the theorems about the code hold for every `Engine`.
-/

namespace FGNet

/-! ## Engine types -/

/-- FVector: three float components. -/
structure FVector where
  X : ℚ
  Y : ℚ
  Z : ℚ
deriving DecidableEq

/-- FRotator: pitch, yaw and roll in degrees. -/
structure FRotator where
  Pitch : ℚ
  Yaw : ℚ
  Roll : ℚ
deriving DecidableEq

/-- ENetRole, in the order of the engine's enumeration. -/
inductive ENetRole where
  | ROLE_None
  | ROLE_SimulatedProxy
  | ROLE_AutonomousProxy
  | ROLE_Authority
deriving DecidableEq

/-- Numeric value of a role, used by the comparison `GetLocalRole() >= ROLE_AutonomousProxy`. -/
def ENetRole.toNat : ENetRole → Nat
  | .ROLE_None => 0
  | .ROLE_SimulatedProxy => 1
  | .ROLE_AutonomousProxy => 2
  | .ROLE_Authority => 3

/-- EFGPickupType: the two kinds of pickup the player code switches on, and
`Other` for any further enumerator (`FGPickup.h` is not among the sources; the
switches treat every other value as "do nothing"). -/
inductive EFGPickupType where
  | Rocket
  | Health
  | Other
deriving DecidableEq

/-- What an `AActor*` can point at, as far as `AFGRocket::Explode` can tell:
an actor that is not a vehicle, or the vehicle `id` together with the answer of
its `IsLocallyControlled()` on the process where the call happens. -/
inductive AActor where
  | Other
  | Player (id : Nat) (bLocallyControlled : Bool)
deriving DecidableEq

/-- FHitResult: the two fields of the line trace result that `Tick` reads. -/
structure FHitResult where
  bBlockingHit : Bool
  Actor : Option AActor
deriving DecidableEq

/-- The float arithmetic and the engine functions used by the embedded code
whose bodies are not in the repository.  `FAdd`, `FSub`, `FMul`, `FDiv` are the
`float` operations `+`, `-`, `*`, `/` (each rounds its result) and `Pow` is
`FMath::Pow`.  `SlerpVector a b t` stands for
`FQuat::Slerp(a.ToOrientationQuat(), b, t).Vector()`, a quaternion being kept as
the direction it was built from. -/
structure Engine where
  FAdd : ℚ → ℚ → ℚ
  FSub : ℚ → ℚ → ℚ
  FMul : ℚ → ℚ → ℚ
  FDiv : ℚ → ℚ → ℚ
  SlerpVector : FVector → FVector → ℚ → FVector
  RotatorVector : FRotator → FVector
  VectorRotation : FVector → FRotator
  FindDeltaAngleDegrees : ℚ → ℚ → ℚ
  Pow : ℚ → ℚ → ℚ
  VInterpTo : FVector → FVector → ℚ → ℚ → FVector
  SetFacingRotation : FRotator → ℚ → ℚ → FRotator
  Move : FVector → FRotator → FRotator → FVector → FVector × FRotator

/-- Component-wise float sum, `operator+` of FVector. -/
def FVector.add (E : Engine) (a b : FVector) : FVector :=
  ⟨E.FAdd a.X b.X, E.FAdd a.Y b.Y, E.FAdd a.Z b.Z⟩

/-- Scaling by a float, `operator*` of FVector. -/
def FVector.scale (E : Engine) (a : FVector) (k : ℚ) : FVector :=
  ⟨E.FMul a.X k, E.FMul a.Y k, E.FMul a.Z k⟩

/-- Component-wise float sum, `operator+` of FRotator. -/
def FRotator.add (E : Engine) (a b : FRotator) : FRotator :=
  ⟨E.FAdd a.Pitch b.Pitch, E.FAdd a.Yaw b.Yaw, E.FAdd a.Roll b.Roll⟩

/-- Reduction of an integer to the `int32` range, two's complement. -/
def wrap32 (x : Int) : Int := (x + 2147483648) % 4294967296 - 2147483648

/-- The countdown of a `float` member that starts at `start` and has the
elapsed time of each tick subtracted from it (`X -= DeltaTime`), in the float
arithmetic of `E`. -/
def Countdown (E : Engine) (start : ℚ) : List ℚ → ℚ
  | [] => start
  | DeltaTime :: rest => Countdown E (E.FSub start DeltaTime) rest

/-- The calls a member function makes that are visible outside the object. -/
inductive Call where
  | Explode (Rocket : Nat) (CollidedActor : Option AActor)
  | SpawnEmitterAtLocation (Rocket : Nat)
  | Server_OntHit (HitPlayer : Nat) (Rocket : Nat)
  | Multicast_OntHit (Rocket : Option Nat) (NewHealth : Int)
  | Server_FireRocket (NewRocket : Option Nat) (RocketStartLocation : FVector)
      (FacingRotation : FRotator)
  | Multicast_FireRocket (NewRocket : Option Nat) (RocketStartLocation : FVector)
      (FacingRotation : FRotator)
  | Client_RemoveRocket (RocketToRemove : Option Nat)
  | Multicast_UpdateItemAmount (PickUpType : EFGPickupType) (ServerAmount : Int)
  | BP_OnNumRocketsChanged (NewNumRockets : Int)
  | BP_OnNumHealthChanged (NewHealth : Int)
  | Server_SendLocation (LocationToSend : FVector)
  | Server_SendYaw (NewYaw : ℚ)
deriving DecidableEq

/-- The hit reports among a list of calls, each as (vehicle hit, rocket named). -/
def hitReports : List Call → List (Nat × Nat)
  | [] => []
  | Call.Server_OntHit HitPlayer Rocket :: cs => (HitPlayer, Rocket) :: hitReports cs
  | _ :: cs => hitReports cs

/-- The arguments of the calls of `Explode` among a list of calls. -/
def explodeCalls : List Call → List (Option AActor)
  | [] => []
  | Call.Explode _ CollidedActor :: cs => CollidedActor :: explodeCalls cs
  | _ :: cs => explodeCalls cs

/-- The rockets named by the fire requests (`Server_FireRocket`) among a list of calls. -/
def fireRequests : List Call → List (Option Nat)
  | [] => []
  | Call.Server_FireRocket NewRocket _ _ :: cs => NewRocket :: fireRequests cs
  | _ :: cs => fireRequests cs

/-- The rockets named by the activation broadcasts (`Multicast_FireRocket`)
among a list of calls. -/
def fireBroadcasts : List Call → List (Option Nat)
  | [] => []
  | Call.Multicast_FireRocket NewRocket _ _ :: cs => NewRocket :: fireBroadcasts cs
  | _ :: cs => fireBroadcasts cs

/-- The rockets named by the rejections (`Client_RemoveRocket`) among a list of calls. -/
def rejections : List Call → List (Option Nat)
  | [] => []
  | Call.Client_RemoveRocket RocketToRemove :: cs => RocketToRemove :: rejections cs
  | _ :: cs => rejections cs

/-- The health values carried by the broadcasts `Multicast_OntHit` among a list of calls. -/
def healthBroadcasts : List Call → List Int
  | [] => []
  | Call.Multicast_OntHit _ NewHealth :: cs => NewHealth :: healthBroadcasts cs
  | _ :: cs => healthBroadcasts cs

/-! ## AFGRocket (FGRocket.cpp) -/

/-- The state of one rocket actor.  `bActorTickEnabled` is what
`SetActorTickEnabled` sets, `bVisible` what `SetRocketVisibility` sets and
`bHasExplosion` is `Explosion != nullptr`. -/
structure AFGRocket where
  bIsFree : Bool
  bActorTickEnabled : Bool
  bVisible : Bool
  bHasExplosion : Bool
  LifeTime : ℚ
  MovementVelocity : ℚ
  LifeTimeElapsed : ℚ
  DistanceMoved : ℚ
  FacingRotationStart : FVector
  FacingRotationCorrection : FVector
  RocketStartLocation : FVector
  OriginalFacingDirection : FVector
  ActorLocation : FVector
  ActorRotation : FRotator
deriving DecidableEq

namespace AFGRocket

/-- Modelled from the spec: `FGRocket.h` is not among the sources, so the
accessor `IsFree()` is taken to read the activation flag `bIsFree` that
`StartMoving` clears and `MakeFree` sets (a projectile is Free or InFlight). -/
def IsFree (r : AFGRocket) : Bool := r.bIsFree

/-- AFGRocket::SetRocketVisibility. -/
def SetRocketVisibility (r : AFGRocket) (bVisible : Bool) : AFGRocket :=
  { r with bVisible := bVisible }

/-- AFGRocket::MakeFree. -/
def MakeFree (r : AFGRocket) : AFGRocket :=
  SetRocketVisibility { r with bIsFree := true, bActorTickEnabled := false } false

/-- AFGRocket::StartMoving. -/
def StartMoving (E : Engine) (r : AFGRocket) (Forward InStartLocation : FVector) : AFGRocket :=
  let r1 := { r with FacingRotationStart := Forward }
  let r2 := { r1 with FacingRotationCorrection := r1.FacingRotationStart }
  let r3 := { r2 with RocketStartLocation := InStartLocation }
  let r4 := { r3 with ActorLocation := InStartLocation, ActorRotation := E.VectorRotation Forward }
  let r5 := { r4 with bIsFree := false }
  let r6 := { r5 with bActorTickEnabled := true }
  let r7 := SetRocketVisibility r6 true
  let r8 := { r7 with LifeTimeElapsed := r7.LifeTime }
  let r9 := { r8 with DistanceMoved := 0 }
  { r9 with OriginalFacingDirection := r9.FacingRotationStart }

/-- AFGRocket::ApplyCorrection. -/
def ApplyCorrection (r : AFGRocket) (Forward : FVector) : AFGRocket :=
  { r with FacingRotationCorrection := Forward }

/-- AFGRocket::Explode; `self` is the identity (the `this` pointer) of the rocket, which the hit
report carries. -/
def Explode (self : Nat) (r : AFGRocket) (CollidedActor : Option AActor) :
    AFGRocket × List Call :=
  let report : List Call :=
    match CollidedActor with
    | some (AActor.Player HitPlayer true) => [Call.Server_OntHit HitPlayer self]
    | _ => []
  let emitter : List Call :=
    if r.bHasExplosion then [Call.SpawnEmitterAtLocation self] else []
  (MakeFree r, report ++ emitter)

/-- The first part of `AFGRocket::Tick`, up to `SetActorLocation(NewLocation)`:
the remaining lifetime and the distance are updated, the direction is blended
towards the correction and the actor is moved.  The literal `0.9f` is the
single-precision number 15099494 / 16777216. -/
def Advance (E : Engine) (r : AFGRocket) (DeltaTime : ℚ) : AFGRocket :=
  let r1 := { r with LifeTimeElapsed := E.FSub r.LifeTimeElapsed DeltaTime }
  let r2 := { r1 with
    DistanceMoved := E.FAdd r1.DistanceMoved (E.FMul r1.MovementVelocity DeltaTime) }
  let Blend := E.SlerpVector r2.FacingRotationStart r2.FacingRotationCorrection
    (E.FMul (15099494 / 16777216) DeltaTime)
  let r3 := { r2 with FacingRotationStart := Blend }
  let NewLocation :=
    r3.RocketStartLocation.add E (r3.FacingRotationStart.scale E r3.DistanceMoved)
  { r3 with ActorLocation := NewLocation }

/-- AFGRocket::Tick; `Hit` is what `LineTraceSingleByChannel` writes for the
segment probed in this tick.  Each call of `Explode` is recorded in front of
the calls that `Explode` makes. -/
def Tick (E : Engine) (self : Nat) (r : AFGRocket) (DeltaTime : ℚ) (Hit : FHitResult) :
    AFGRocket × List Call :=
  let r4 := r.Advance E DeltaTime
  let a := if Hit.bBlockingHit then
      ((Explode self r4 Hit.Actor).1, Call.Explode self Hit.Actor :: (Explode self r4 Hit.Actor).2)
    else (r4, [])
  let b := if a.1.LifeTimeElapsed < 0 then
      ((Explode self a.1 none).1, Call.Explode self none :: (Explode self a.1 none).2)
    else (a.1, [])
  (b.1, a.2 ++ b.2)

/-- The engine's tick of a rocket actor: `Tick` runs only while ticking is
enabled for the actor (`SetActorTickEnabled`). -/
def EngineTick (E : Engine) (self : Nat) (r : AFGRocket) (DeltaTime : ℚ) (Hit : FHitResult) :
    AFGRocket × List Call :=
  if r.bActorTickEnabled then r.Tick E self DeltaTime Hit else (r, [])

/-- A sequence of engine ticks of one rocket, each with its elapsed time and
the result of its line trace. -/
def Flight (E : Engine) (self : Nat) (r : AFGRocket) : List (ℚ × FHitResult) → AFGRocket × List Call
  | [] => (r, [])
  | t :: ts =>
    ((Flight E self (r.EngineTick E self t.1 t.2).1 ts).1,
      (r.EngineTick E self t.1 t.2).2 ++ (Flight E self (r.EngineTick E self t.1 t.2).1 ts).2)

end AFGRocket

/-! ## AFGPlayer (FGPlayer.h, FGPlayer.cpp) -/

/-- The fields of `UFGPlayerSettings` that the player code reads
(`FGPlayerSettings.h` is not among the sources). -/
structure UFGPlayerSettings where
  MaxVelocity : ℚ
  Acceleration : ℚ
  Friction : ℚ
  BrakingFriction : ℚ
  TurnSpeedDefault : ℚ
  FireCooldown : ℚ
deriving DecidableEq

/-- The fields of `AFGPickup` that `PredictPickedUp` reads. -/
structure AFGPickup where
  PickupType : EFGPickupType
  NumPickedUp : Int
deriving DecidableEq

/-- The copy of one vehicle on one process.  `LocalRole` is `GetLocalRole()`,
`bLocallyControlled` is `IsLocallyControlled()`, `PlayerSettings` is `none` for
`nullptr`, a slot of `RocketInstances` is `none` for `nullptr`, and
`ActorLocation`, `ActorRotation`, `FacingRotation` are the actor transform and
the facing rotation kept by the movement component. -/
structure AFGPlayer where
  LocalRole : ENetRole
  bLocallyControlled : Bool
  PlayerSettings : Option UFGPlayerSettings
  Health : Int
  NumRockets : Int
  RocketDamage : Int
  ServerHealth : Int
  ServerNumRockets : Int
  RocketInstances : List (Option AFGRocket)
  bUnlimitedRockets : Bool
  FireCooldownElapsed : ℚ
  ReplicatedYaw : ℚ
  ReplicatedLocation : FVector
  Forward : ℚ
  Turn : ℚ
  MovementVelocity : ℚ
  Yaw : ℚ
  bBrake : Bool
  ActorLocation : FVector
  ActorRotation : FRotator
  FacingRotation : FRotator
deriving DecidableEq

/-- The member `int32 MaxActiveRockets = 3`, which no code assigns. -/
def MaxActiveRockets : Nat := 3

/-- FMath::Clamp, `X<Min ? Min : X<Max ? X : Max`. -/
def Clamp (x lo hi : ℚ) : ℚ := if x < lo then lo else if x < hi then x else hi

/-- The expression `FMath::Clamp(FMath::Abs(X / Y), 0.0f, 1.0f)`.  Division by
zero gives an infinity or NaN, which `Abs` keeps and for which both comparisons
of `Clamp` fail, so that `Clamp` returns its upper bound 1. -/
def ClampAbsDiv (E : Engine) (X Y : ℚ) : ℚ :=
  if Y = 0 then 1 else Clamp (|E.FDiv X Y|) 0 1

/-- FMath::InterpEaseOut: `Lerp(A, B, 1 - Pow(1 - Alpha, Exp))`, where
`Lerp(A, B, t)` is `A + t * (B - A)`, all in float arithmetic. -/
def InterpEaseOut (E : Engine) (A B Alpha Exp : ℚ) : ℚ :=
  E.FAdd A (E.FMul (E.FSub 1 (E.Pow (E.FSub 1 Alpha) Exp)) (E.FSub B A))

namespace AFGPlayer

/-- AActor::HasAuthority. -/
def HasAuthority (p : AFGPlayer) : Bool := p.LocalRole = ENetRole.ROLE_Authority

/-- APawn::IsLocallyControlled. -/
def IsLocallyControlled (p : AFGPlayer) : Bool := p.bLocallyControlled

/-- AFGPlayer::IsBraking. -/
def IsBraking (p : AFGPlayer) : Bool := p.bBrake

/-- AActor::GetActorForwardVector. -/
def GetActorForwardVector (E : Engine) (p : AFGPlayer) : FVector :=
  E.RotatorVector p.ActorRotation

/-- AFGPlayer::GetRocketStartLocation. -/
def GetRocketStartLocation (E : Engine) (p : AFGPlayer) : FVector :=
  p.ActorLocation.add E ((GetActorForwardVector E p).scale E 100)

/-- Dereference of an `AFGRocket*` of this vehicle; `none` when the pointer is
`nullptr` or does not resolve to a rocket. -/
def deref (p : AFGPlayer) (Rocket : Option Nat) : Option AFGRocket :=
  match Rocket with
  | none => none
  | some i => (p.RocketInstances[i]?).join

/-- Write the state of the rocket in slot `i` back. -/
def store (p : AFGPlayer) (i : Nat) (r : AFGRocket) : AFGPlayer :=
  { p with RocketInstances := p.RocketInstances.set i (some r) }

/-- The body of the loop of `GetNumActiveRockets`: `if(!Rocket->IsFree()) NumActive++`,
undefined once a null slot has been dereferenced. -/
def countStep (NumActive : Option Nat) (Rocket : Option AFGRocket) : Option Nat :=
  match NumActive, Rocket with
  | some n, some r => if !r.IsFree then some (n + 1) else some n
  | _, _ => none

/-- AFGPlayer::GetNumActiveRockets: the loop over `RocketInstances` with the
accumulator `NumActive`; it dereferences every slot without a null check. -/
def GetNumActiveRockets (p : AFGPlayer) : Option Nat :=
  p.RocketInstances.foldl countStep (some 0)

/-- The loop of `GetFreeRocket` over the slots from index `k` on. -/
def GetFreeRocketFrom : List (Option AFGRocket) → Nat → Option Nat
  | [], _ => none
  | none :: rest, k => GetFreeRocketFrom rest (k + 1)
  | some r :: rest, k => if r.IsFree then some k else GetFreeRocketFrom rest (k + 1)

/-- AFGPlayer::GetFreeRocket: the first non-null slot whose rocket is free,
`none` for `nullptr`. -/
def GetFreeRocket (p : AFGPlayer) : Option Nat :=
  GetFreeRocketFrom p.RocketInstances 0

/-- AFGPlayer::Client_RemoveRocket_Implementation. -/
def Client_RemoveRocket_Implementation (p : AFGPlayer) (RocketToRemove : Option Nat) :
    Option (AFGPlayer × List Call) :=
  match RocketToRemove with
  | none => none
  | some i =>
    match p.deref (some i) with
    | none => none
    | some r => some (p.store i r.MakeFree, [])

/-- The client call `Client_RemoveRocket` made on the authority: it runs on the
owning client, which is this process exactly when the vehicle is locally
controlled here. -/
def Client_RemoveRocket (p : AFGPlayer) (RocketToRemove : Option Nat) :
    Option (AFGPlayer × List Call) :=
  if p.IsLocallyControlled then
    (p.Client_RemoveRocket_Implementation RocketToRemove).map
      (fun q => (q.1, Call.Client_RemoveRocket RocketToRemove :: q.2))
  else some (p, [Call.Client_RemoveRocket RocketToRemove])

/-- AFGPlayer::Multicast_FireRocket_Implementation. -/
def Multicast_FireRocket_Implementation (E : Engine) (p : AFGPlayer) (NewRocket : Option Nat)
    (RocketStartLocation : FVector) (FacingRotation : FRotator) :
    Option (AFGPlayer × List Call) :=
  match NewRocket with
  | none => some (p, [])
  | some i =>
    match p.deref (some i) with
    | none => none
    | some r =>
      if p.LocalRole = ENetRole.ROLE_AutonomousProxy then
        some (p.store i (r.ApplyCorrection (E.RotatorVector FacingRotation)), [])
      else
        some (store { p with NumRockets := p.NumRockets - 1 } i
          (r.StartMoving E (E.RotatorVector FacingRotation) RocketStartLocation), [])

/-- The broadcast call `Multicast_FireRocket`: it runs on the calling process
(and, when that is the authority, is delivered to every other process). -/
def Multicast_FireRocket (E : Engine) (p : AFGPlayer) (NewRocket : Option Nat)
    (RocketStartLocation : FVector) (FacingRotation : FRotator) :
    Option (AFGPlayer × List Call) :=
  (p.Multicast_FireRocket_Implementation E NewRocket RocketStartLocation FacingRotation).map
    (fun q => (q.1, Call.Multicast_FireRocket NewRocket RocketStartLocation FacingRotation :: q.2))

/-- AFGPlayer::Multicast_UpdateItemAmount_Implementation. -/
def Multicast_UpdateItemAmount_Implementation (p : AFGPlayer) (PickUpType : EFGPickupType)
    (ServerAmount : Int) : AFGPlayer × List Call :=
  if !p.IsLocallyControlled then
    match PickUpType with
    | EFGPickupType.Rocket => (p, [Call.BP_OnNumRocketsChanged ServerAmount])
    | EFGPickupType.Health => (p, [Call.BP_OnNumHealthChanged ServerAmount])
    | EFGPickupType.Other => (p, [])
  else (p, [])

/-- The broadcast call `Multicast_UpdateItemAmount`. -/
def Multicast_UpdateItemAmount (p : AFGPlayer) (PickUpType : EFGPickupType)
    (ServerAmount : Int) : AFGPlayer × List Call :=
  ((p.Multicast_UpdateItemAmount_Implementation PickUpType ServerAmount).1,
    Call.Multicast_UpdateItemAmount PickUpType ServerAmount ::
      (p.Multicast_UpdateItemAmount_Implementation PickUpType ServerAmount).2)

/-- The local `NewFacingRotation` of `Server_FireRocket_Implementation`: the
claimed facing turned by half the angle to the authority's own forward direction. -/
def NewFacingRotation (E : Engine) (p : AFGPlayer) (FacingRotation : FRotator) : FRotator :=
  let DeltaYaw := E.FMul (E.FindDeltaAngleDegrees FacingRotation.Yaw
    (E.VectorRotation (p.GetActorForwardVector E)).Yaw) (1 / 2)
  FacingRotation.add E ⟨0, DeltaYaw, 0⟩

/-- AFGPlayer::Server_FireRocket_Implementation. -/
def Server_FireRocket_Implementation (E : Engine) (p : AFGPlayer) (NewRocket : Option Nat)
    (RocketStartLocation : FVector) (FacingRotation : FRotator) :
    Option (AFGPlayer × List Call) :=
  if p.ServerNumRockets - 1 < 0 ∧ p.bUnlimitedRockets = false then
    p.Client_RemoveRocket NewRocket
  else
    let p1 := { p with ServerNumRockets := p.ServerNumRockets - 1 }
    let u := p1.Multicast_UpdateItemAmount EFGPickupType.Rocket p1.ServerNumRockets
    (u.1.Multicast_FireRocket E NewRocket RocketStartLocation
        (p.NewFacingRotation E FacingRotation)).map
      (fun q => (q.1, u.2 ++ q.2))

/-- The server call `Server_FireRocket`: on the authority it runs at once, on
any other process it is only sent. -/
def Server_FireRocket (E : Engine) (p : AFGPlayer) (NewRocket : Option Nat)
    (RocketStartLocation : FVector) (FacingRotation : FRotator) :
    Option (AFGPlayer × List Call) :=
  if p.HasAuthority then
    (p.Server_FireRocket_Implementation E NewRocket RocketStartLocation FacingRotation).map
      (fun q => (q.1, Call.Server_FireRocket NewRocket RocketStartLocation FacingRotation :: q.2))
  else some (p, [Call.Server_FireRocket NewRocket RocketStartLocation FacingRotation])

/-- AFGPlayer::FireRocket. -/
def FireRocket (E : Engine) (p : AFGPlayer) : Option (AFGPlayer × List Call) :=
  if p.FireCooldownElapsed > 0 then some (p, [])
  else if p.NumRockets ≤ 0 ∧ p.bUnlimitedRockets = false then some (p, [])
  else
    match p.GetNumActiveRockets with
    | none => none
    | some NumActive =>
      if NumActive ≥ MaxActiveRockets then some (p, [])
      else
        match p.GetFreeRocket with
        | none => some (p, [])
        | some NewRocket =>
          match p.PlayerSettings with
          | none => none
          | some Settings =>
            let p1 := { p with FireCooldownElapsed := Settings.FireCooldown }
            if p1.LocalRole.toNat ≥ ENetRole.ROLE_AutonomousProxy.toNat then
              if p1.HasAuthority then
                (p1.Server_FireRocket E (some NewRocket) (p1.GetRocketStartLocation E)
                    p1.ActorRotation).map
                  (fun q => (q.1, q.2 ++ [Call.BP_OnNumRocketsChanged q.1.NumRockets]))
              else
                let p2 := { p1 with NumRockets := p1.NumRockets - 1 }
                match p2.deref (some NewRocket) with
                | none => none
                | some r =>
                  let p3 := p2.store NewRocket
                    (r.StartMoving E (p2.GetActorForwardVector E) (p2.GetRocketStartLocation E))
                  (p3.Server_FireRocket E (some NewRocket) (p3.GetRocketStartLocation E)
                      p3.ActorRotation).map
                    (fun q => (q.1, q.2 ++ [Call.BP_OnNumRocketsChanged q.1.NumRockets]))
            else some (p1, [])

/-- AFGPlayer::Multicast_OntHit_Implementation. -/
def Multicast_OntHit_Implementation (p : AFGPlayer) (_Rocket : Option Nat) (NewHealth : Int) :
    AFGPlayer × List Call :=
  let p1 := { p with Health := NewHealth }
  (p1, [Call.BP_OnNumHealthChanged p1.Health])

/-- The broadcast call `Multicast_OntHit`: it runs on the calling process and is
delivered to every other process. -/
def Multicast_OntHit (p : AFGPlayer) (Rocket : Option Nat) (NewHealth : Int) :
    AFGPlayer × List Call :=
  ((p.Multicast_OntHit_Implementation Rocket NewHealth).1,
    Call.Multicast_OntHit Rocket NewHealth ::
      (p.Multicast_OntHit_Implementation Rocket NewHealth).2)

/-- AFGPlayer::Server_OntHit_Implementation. -/
def Server_OntHit_Implementation (p : AFGPlayer) (Rocket : Option Nat) : AFGPlayer × List Call :=
  let p1 := { p with ServerHealth := wrap32 (p.ServerHealth - p.RocketDamage) }
  p1.Multicast_OntHit Rocket p1.ServerHealth

/-- AFGPlayer::PredictPickedUp. -/
def PredictPickedUp (p : AFGPlayer) (Pickup : AFGPickup) : AFGPlayer × List Call :=
  match Pickup.PickupType with
  | EFGPickupType.Health =>
    let p1 := { p with Health := wrap32 (p.Health + Pickup.NumPickedUp) }
    (p1, [Call.BP_OnNumHealthChanged p1.Health])
  | EFGPickupType.Rocket =>
    let p1 := { p with NumRockets := wrap32 (p.NumRockets + Pickup.NumPickedUp) }
    (p1, [Call.BP_OnNumRocketsChanged p1.NumRockets])
  | EFGPickupType.Other => (p, [])

/-- The server call `Server_SendLocation`, whose implementation stores the
location in `ReplicatedLocation`: run at once on the authority, only sent elsewhere. -/
def Server_SendLocation (p : AFGPlayer) (LocationToSend : FVector) : AFGPlayer × List Call :=
  (if p.HasAuthority then { p with ReplicatedLocation := LocationToSend } else p,
    [Call.Server_SendLocation LocationToSend])

/-- The server call `Server_SendYaw`, whose implementation stores the yaw in
`ReplicatedYaw`: run at once on the authority, only sent elsewhere. -/
def Server_SendYaw (p : AFGPlayer) (NewYaw : ℚ) : AFGPlayer × List Call :=
  (if p.HasAuthority then { p with ReplicatedYaw := NewYaw } else p,
    [Call.Server_SendYaw NewYaw])

/-- AFGPlayer::Tick.  The calls into the movement component (`SetFacingRotation`,
`CreateFrameMovement`, `ApplyGravity`, `Move`) are the engine functions
`SetFacingRotation` and `Move`. -/
def Tick (E : Engine) (p : AFGPlayer) (DeltaTime : ℚ) : AFGPlayer × List Call :=
  let p1 := { p with FireCooldownElapsed := E.FSub p.FireCooldownElapsed DeltaTime }
  match p1.PlayerSettings with
  | none => (p1, [])
  | some Settings =>
    if p1.IsLocallyControlled then
      let MaxVelocity := Settings.MaxVelocity
      let Acceleration := Settings.Acceleration
      let Friction := if p1.IsBraking then Settings.BrakingFriction else Settings.Friction
      let Alpha := ClampAbsDiv E p1.MovementVelocity (E.FMul Settings.MaxVelocity (3 / 4))
      let TurnSpeed := InterpEaseOut E 0 Settings.TurnSpeedDefault Alpha 5
      let TurnDirection := if p1.MovementVelocity > 0 then p1.Turn else -p1.Turn
      let p2 := { p1 with
        Yaw := E.FAdd p1.Yaw (E.FMul (E.FMul TurnDirection TurnSpeed) DeltaTime) }
      let p3 := { p2 with FacingRotation := E.SetFacingRotation p2.FacingRotation p2.Yaw (21 / 2) }
      let p4 := { p3 with
        MovementVelocity :=
          E.FAdd p3.MovementVelocity (E.FMul (E.FMul p3.Forward Acceleration) DeltaTime) }
      let p5 := { p4 with MovementVelocity := Clamp p4.MovementVelocity (-MaxVelocity) MaxVelocity }
      let p6 := { p5 with MovementVelocity := E.FMul p5.MovementVelocity (E.Pow Friction DeltaTime) }
      let Moved := E.Move p6.ActorLocation p6.ActorRotation p6.FacingRotation
        (((p6.GetActorForwardVector E).scale E p6.MovementVelocity).scale E DeltaTime)
      let p7 := { p6 with ActorLocation := Moved.1, ActorRotation := Moved.2 }
      let a := p7.Server_SendLocation p7.ActorLocation
      let b := a.1.Server_SendYaw a.1.FacingRotation.Yaw
      (b.1, a.2 ++ b.2)
    else
      let NewLocation := E.VInterpTo p1.ActorLocation p1.ReplicatedLocation DeltaTime 1
      let p2 := { p1 with ActorLocation := NewLocation }
      let p3 := { p2 with FacingRotation := ⟨0, p2.ReplicatedYaw, 0⟩ }
      ({ p3 with ActorRotation := p3.FacingRotation }, [])

/-- The engine's tick of the rocket actor in slot `i` (nothing ticks where the
slot holds no rocket). -/
def RocketTick (E : Engine) (p : AFGPlayer) (i : Nat) (DeltaTime : ℚ) (Hit : FHitResult) :
    AFGPlayer × List Call :=
  match p.deref (some i) with
  | none => (p, [])
  | some r => (p.store i (r.EngineTick E i DeltaTime Hit).1, (r.EngineTick E i DeltaTime Hit).2)

end AFGPlayer

/-- The authority handling a sequence of hit reports for one vehicle, one
`Server_OntHit_Implementation` per report, in order of arrival. -/
def AFGPlayer.HandleHits (p : AFGPlayer) : List (Option Nat) → AFGPlayer × List Call
  | [] => (p, [])
  | Rocket :: rest =>
    ((HandleHits (p.Server_OntHit_Implementation Rocket).1 rest).1,
      (p.Server_OntHit_Implementation Rocket).2 ++
        (HandleHits (p.Server_OntHit_Implementation Rocket).1 rest).2)

/-! ## Runs of one process -/

/-- What can happen to the copy of a vehicle on one process: the fire input,
the two actor ticks, the delivery of a remote call, a predicted pickup. -/
inductive Event where
  | FireRocket
  | Tick (DeltaTime : ℚ)
  | RocketTick (Rocket : Nat) (DeltaTime : ℚ) (Hit : FHitResult)
  | Multicast_FireRocket (NewRocket : Option Nat) (RocketStartLocation : FVector)
      (FacingRotation : FRotator)
  | Client_RemoveRocket (RocketToRemove : Option Nat)
  | PredictPickedUp (Pickup : AFGPickup)
deriving DecidableEq

/-- One event on one process. -/
def step (E : Engine) (p : AFGPlayer) : Event → Option (AFGPlayer × List Call)
  | .FireRocket => p.FireRocket E
  | .Tick DeltaTime => some (p.Tick E DeltaTime)
  | .RocketTick i DeltaTime Hit => some (p.RocketTick E i DeltaTime Hit)
  | .Multicast_FireRocket NewRocket Loc Rot => p.Multicast_FireRocket_Implementation E NewRocket Loc Rot
  | .Client_RemoveRocket Rocket => p.Client_RemoveRocket_Implementation Rocket
  | .PredictPickedUp Pickup => some (p.PredictPickedUp Pickup)

/-- A sequence of events on one process; the calls made are collected in order. -/
def run (E : Engine) (p : AFGPlayer) : List Event → Option (AFGPlayer × List Call)
  | [] => some (p, [])
  | e :: es =>
    match step E p e with
    | none => none
    | some q =>
      match run E q.1 es with
      | none => none
      | some q2 => some (q2.1, q.2 ++ q2.2)

/-! ## Concrete data used to evaluate the definitions -/

/-- An engine whose four arithmetic operations are exact, with `Pow` exact for
the exponents 5 and 1 (and 1 elsewhere) and the remaining functions as simple
as their types allow.  Its arithmetic agrees with single precision wherever
the operands and the exact result are single-precision numbers. -/
def engine0 : Engine where
  FAdd := fun a b => a + b
  FSub := fun a b => a - b
  FMul := fun a b => a * b
  FDiv := fun a b => a / b
  SlerpVector := fun a _ _ => a
  RotatorVector := fun _ => ⟨1, 0, 0⟩
  VectorRotation := fun _ => ⟨0, 0, 0⟩
  FindDeltaAngleDegrees := fun a b => b - a
  Pow := fun a b => if b = 5 then a ^ 5 else if b = 1 then a else 1
  VInterpTo := fun a _ _ _ => a
  SetFacingRotation := fun _ yaw _ => ⟨0, yaw, 0⟩
  Move := fun l r _ d => (⟨l.X + d.X, l.Y + d.Y, l.Z + d.Z⟩, r)

/-- A free rocket with lifetime 5 and speed 3000, as after `BeginPlay`. -/
def rocket0 : AFGRocket where
  bIsFree := true
  bActorTickEnabled := false
  bVisible := false
  bHasExplosion := true
  LifeTime := 5
  MovementVelocity := 3000
  LifeTimeElapsed := 0
  DistanceMoved := 0
  FacingRotationStart := ⟨0, 0, 0⟩
  FacingRotationCorrection := ⟨0, 0, 0⟩
  RocketStartLocation := ⟨0, 0, 0⟩
  OriginalFacingDirection := ⟨0, 0, 0⟩
  ActorLocation := ⟨0, 0, 0⟩
  ActorRotation := ⟨0, 0, 0⟩

/-- Settings with a fire cooldown of one second. -/
def settings0 : UFGPlayerSettings where
  MaxVelocity := 1000
  Acceleration := 500
  Friction := 1 / 2
  BrakingFriction := 1 / 10
  TurnSpeedDefault := 90
  FireCooldown := 1

/-- A vehicle as `BeginPlay` leaves it, with the header's default values and a
pool of eight free rockets, on the process with the given role. -/
def player0 (Role : ENetRole) (bLocal : Bool) : AFGPlayer where
  LocalRole := Role
  bLocallyControlled := bLocal
  PlayerSettings := some settings0
  Health := 100
  NumRockets := 0
  RocketDamage := 10
  ServerHealth := 100
  ServerNumRockets := 0
  RocketInstances := List.replicate 8 (some rocket0)
  bUnlimitedRockets := false
  FireCooldownElapsed := 0
  ReplicatedYaw := 0
  ReplicatedLocation := ⟨0, 0, 0⟩
  Forward := 0
  Turn := 0
  MovementVelocity := 0
  Yaw := 0
  bBrake := false
  ActorLocation := ⟨0, 0, 0⟩
  ActorRotation := ⟨0, 0, 0⟩
  FacingRotation := ⟨0, 0, 0⟩

/-- The vehicle of scenario A on its owning client: predicted ammunition 1,
no rocket in flight, no cooldown running. -/
def client1 : AFGPlayer :=
  { player0 ENetRole.ROLE_AutonomousProxy true with NumRockets := 1 }

/-- A line trace result without a blocking hit. -/
def noHit : FHitResult := ⟨false, none⟩

/-- A sequence of events on the owning client that fires, flies, receives the
authority's broadcast and a rejection, and tries to fire again. -/
def events1 : List Event :=
  [Event.FireRocket, Event.RocketTick 0 1 noHit,
    Event.Multicast_FireRocket (some 0) ⟨0, 0, 0⟩ ⟨0, 0, 0⟩, Event.FireRocket,
    Event.PredictPickedUp ⟨EFGPickupType.Rocket, 2⟩, Event.Client_RemoveRocket (some 0)]

/-- The listen-server host's own vehicle: authority and locally controlled,
with one rocket of ammunition on both counters. -/
def host1 : AFGPlayer :=
  { player0 ENetRole.ROLE_Authority true with NumRockets := 1, ServerNumRockets := 1 }

/-- A sequence of events on the host: it fires (applying its own broadcast),
its rocket flies, it tries to fire again and picks up ammunition. -/
def events2 : List Event :=
  [Event.FireRocket, Event.RocketTick 0 1 noHit, Event.FireRocket,
    Event.PredictPickedUp ⟨EFGPickupType.Rocket, 2⟩]

/-- The state `FireRocket` leaves on the owning client of scenario A: the
cooldown set, the predicted ammunition spent and rocket 0 started. -/
def client2 : AFGPlayer :=
  AFGPlayer.store { client1 with FireCooldownElapsed := 1, NumRockets := 0 } 0
    (rocket0.StartMoving engine0 (client1.GetActorForwardVector engine0)
      (client1.GetRocketStartLocation engine0))

/-- The authority's copy of a vehicle controlled by a remote client, with the
header's default values: authoritative ammunition 0, unlimited ammunition off. -/
def server0 : AFGPlayer := player0 ENetRole.ROLE_Authority false

/-- What the two pool queries can see of a pool: for each slot whether it is
null and, if not, whether its rocket is free. -/
def poolShape (l : List (Option AFGRocket)) : List (Option Bool) :=
  l.map (Option.map AFGRocket.IsFree)

/-- The engine ticking the rocket of slot `i` once per element of `ticks`. -/
def rocketTicks (i : Nat) (ticks : List (ℚ × FHitResult)) : List Event :=
  ticks.map (fun t => Event.RocketTick i t.1 t.2)

/-- Two ticks of 2 s and 3 s without a blocking hit: 5 s in all. -/
def ticks5 : List (ℚ × FHitResult) := [(2, noHit), (3, noHit)]

/-- The elapsed times of the vehicle's own `Tick` events of a sequence, in order. -/
def tickTimes : List Event → List ℚ
  | [] => []
  | Event.Tick DeltaTime :: es => DeltaTime :: tickTimes es
  | _ :: es => tickTimes es

/-- The total quantity of the rocket pickups predicted in a sequence of events. -/
def pickupTotal : List Event → Int
  | [] => 0
  | Event.PredictPickedUp ⟨EFGPickupType.Rocket, NumPickedUp⟩ :: es => NumPickedUp + pickupTotal es
  | _ :: es => pickupTotal es

/-- The event is the fire input. -/
def Event.isFire : Event → Bool
  | .FireRocket => true
  | _ => false

/-- The value of the local `TurnSpeed` of `AFGPlayer::Tick` for settings `S` at
speed `MovementVelocity`: `InterpEaseOut(0, TurnSpeedDefault, Alpha, 5)` with
`Alpha` the absolute value of `MovementVelocity / (MaxVelocity * 0.75)` clamped
to [0, 1], the product, the quotient and the easing in the float arithmetic
of `E`. -/
def TurnSpeedAt (E : Engine) (S : UFGPlayerSettings) (MovementVelocity : ℚ) : ℚ :=
  InterpEaseOut E 0 S.TurnSpeedDefault
    (ClampAbsDiv E MovementVelocity (E.FMul S.MaxVelocity (3 / 4))) 5

/-- The value of the local `TurnDirection` of `AFGPlayer::Tick`:
`MovementVelocity > 0.0f ? Turn : -Turn`. -/
def TurnDirectionAt (Turn MovementVelocity : ℚ) : ℚ :=
  if MovementVelocity > 0 then Turn else -Turn

/-- Every subtraction of the countdown from `start` through the given tick
lengths is exact in the float arithmetic of `E`. -/
def ExactCountdown (E : Engine) (start : ℚ) : List ℚ → Bool
  | [] => true
  | DeltaTime :: rest =>
    decide (E.FSub start DeltaTime = start - DeltaTime) &&
      ExactCountdown E (E.FSub start DeltaTime) rest

/-- The engine `engine0`, except that the sum 2147483648 + 90 is rounded as
single precision rounds it: the single-precision numbers from 2^31 to 2^32 are
the multiples of 256, and the nearest one to 2147483738 is 2147483648. -/
def engineRounding : Engine :=
  { engine0 with
    FAdd := fun a b => if a = 2147483648 ∧ b = 90 then 2147483648 else a + b }

/-- The vehicle `forward1` with `Yaw` at 2^31 (`Yaw` is only ever added to,
never reduced modulo 360). -/
def spinning1 : AFGPlayer :=
  { player0 ENetRole.ROLE_AutonomousProxy true with
    MovementVelocity := 750, Turn := 1, Yaw := 2147483648 }

/-- The owning client's vehicle with the predicted ammunition at the greatest
`int32`. -/
def clientFull : AFGPlayer :=
  { player0 ENetRole.ROLE_AutonomousProxy true with NumRockets := 2147483647 }

/-- The authority's copy of a vehicle whose rockets do 2000000000 damage. -/
def serverHeavy : AFGPlayer :=
  { player0 ENetRole.ROLE_Authority false with RocketDamage := 2000000000 }

/-- The locally controlled vehicle of an owning client, reversing at speed
-750 (full turning authority for `MaxVelocity` 1000) with the turn input at 1. -/
def reversing1 : AFGPlayer :=
  { player0 ENetRole.ROLE_AutonomousProxy true with MovementVelocity := -750, Turn := 1 }

/-- The same vehicle driving forwards at speed 750. -/
def forward1 : AFGPlayer :=
  { player0 ENetRole.ROLE_AutonomousProxy true with MovementVelocity := 750, Turn := 1 }

/-! ## Predicates used in the statements -/

/-- A slot that holds a rocket in flight. -/
def slotActive : Option AFGRocket → Bool
  | some r => !r.IsFree
  | none => false

/-- The number of slots that hold a rocket in flight. -/
def numActive (l : List (Option AFGRocket)) : Nat := l.countP slotActive

/-- No slot of the pool is `nullptr`. -/
def NoNull (l : List (Option AFGRocket)) : Prop := ∀ x ∈ l, x ≠ none

/-- The three client-side checks of `FireRocket` pass and a free rocket is found. -/
structure FireReady (p : AFGPlayer) (i : Nat) (r : AFGRocket) (S : UFGPlayerSettings) : Prop where
  cooldown : ¬ p.FireCooldownElapsed > 0
  ammo : ¬ (p.NumRockets ≤ 0 ∧ p.bUnlimitedRockets = false)
  nonull : NoNull p.RocketInstances
  active : numActive p.RocketInstances < MaxActiveRockets
  free : p.GetFreeRocket = some i
  slot : p.RocketInstances[i]? = some (some r)
  isFree : r.IsFree = true
  settings : p.PlayerSettings = some S

/-- The delivery of the activation broadcast as an event of its own.  On the
authority the broadcast is applied inside `Server_FireRocket_Implementation`,
which a locally controlled vehicle runs inside its own `FireRocket`. -/
def Event.isBroadcast : Event → Bool
  | .Multicast_FireRocket _ _ _ => true
  | _ => false

/-- The process is one that controls the vehicle, and the events are ones that
can happen there: an owning client (autonomous proxy), or the authority itself,
which is never delivered a fire broadcast other than the one its own
`FireRocket` applies. -/
def Controls (p : AFGPlayer) (evs : List Event) : Prop :=
  p.IsLocallyControlled = true ∧
    (p.LocalRole = ENetRole.ROLE_AutonomousProxy ∨
      (p.LocalRole = ENetRole.ROLE_Authority ∧ ∀ e ∈ evs, e.isBroadcast = false))

/-- The rocket pointers carried by a delivered remote call name rockets of a
pool of `n` slots (a rejection never carries `nullptr`). -/
def Event.wellFormed (n : Nat) : Event → Prop
  | .Multicast_FireRocket (some i) _ _ => i < n
  | .Client_RemoveRocket none => False
  | .Client_RemoveRocket (some i) => i < n
  | _ => True

/-! ## Facts about the pool -/

theorem foldl_countStep_none (l : List (Option AFGRocket)) :
    l.foldl AFGPlayer.countStep none = none := by
  induction l with
  | nil => rfl
  | cons x xs ih => simpa [List.foldl_cons, AFGPlayer.countStep] using ih

theorem foldl_countStep_some (l : List (Option AFGRocket)) (n m : Nat) :
    l.foldl AFGPlayer.countStep (some n) = some m ↔ NoNull l ∧ m = n + numActive l := by
  induction l generalizing n with
  | nil => simp [NoNull, numActive, eq_comm]
  | cons x xs ih =>
    cases x with
    | none => simp [List.foldl_cons, AFGPlayer.countStep, foldl_countStep_none, NoNull]
    | some r =>
      by_cases hf : r.IsFree = true
      · simp [List.foldl_cons, AFGPlayer.countStep, hf, ih, NoNull, numActive, slotActive]
      · simp [List.foldl_cons, AFGPlayer.countStep, hf, ih, NoNull, numActive, slotActive]
        intro _
        omega

theorem GetNumActiveRockets_eq_some (p : AFGPlayer) (m : Nat) :
    p.GetNumActiveRockets = some m ↔ NoNull p.RocketInstances ∧ m = numActive p.RocketInstances := by
  simp [AFGPlayer.GetNumActiveRockets, foldl_countStep_some]

theorem NoNull_set (l : List (Option AFGRocket)) (i : Nat) (r : AFGRocket) (h : NoNull l) :
    NoNull (l.set i (some r)) := by
  intro x hx
  rcases List.mem_or_eq_of_mem_set hx with h1 | h1
  · exact h x h1
  · simp [h1]

theorem numActive_set (l : List (Option AFGRocket)) (i : Nat) (r r2 : AFGRocket)
    (h : l[i]? = some (some r)) :
    numActive (l.set i (some r2)) + (if r.IsFree then 0 else 1)
      = numActive l + (if r2.IsFree then 0 else 1) := by
  induction l generalizing i with
  | nil => simp at h
  | cons x xs ih =>
    cases i with
    | zero =>
      simp at h
      subst h
      simp only [List.set_cons_zero, numActive, List.countP_cons, slotActive]
      by_cases h1 : r.IsFree = true <;> by_cases h2 : r2.IsFree = true <;> simp [h1, h2]
    | succ j =>
      simp at h
      have := ih j h
      simp only [List.set_cons_succ, numActive, List.countP_cons] at this ⊢
      omega

theorem GetFreeRocketFrom_some (l : List (Option AFGRocket)) (k j : Nat)
    (h : AFGPlayer.GetFreeRocketFrom l k = some j) :
    k ≤ j ∧ (∃ r, l[j - k]? = some (some r) ∧ r.IsFree = true) ∧
      ∀ m, m < j - k → ∀ r, l[m]? = some (some r) → r.IsFree = false := by
  induction l generalizing k with
  | nil => simp [AFGPlayer.GetFreeRocketFrom] at h
  | cons x xs ih =>
    cases x with
    | none =>
      simp only [AFGPlayer.GetFreeRocketFrom] at h
      obtain ⟨h1, ⟨r, h2, h3⟩, h4⟩ := ih (k + 1) h
      have e : j - k = (j - (k + 1)) + 1 := by omega
      refine ⟨by omega, ⟨r, ?_, h3⟩, ?_⟩
      · rw [e]; simpa using h2
      · intro m hm r2 hr2
        cases m with
        | zero => simp at hr2
        | succ m2 =>
          simp at hr2
          exact h4 m2 (by omega) r2 hr2
    | some r0 =>
      by_cases hf : r0.IsFree = true
      · simp only [AFGPlayer.GetFreeRocketFrom, hf, if_true, Option.some.injEq] at h
        subst h
        refine ⟨le_refl _, ⟨r0, by simp, hf⟩, ?_⟩
        intro m hm
        omega
      · simp only [AFGPlayer.GetFreeRocketFrom, hf] at h
        simp only [Bool.false_eq_true, if_false] at h
        obtain ⟨h1, ⟨r, h2, h3⟩, h4⟩ := ih (k + 1) h
        have e : j - k = (j - (k + 1)) + 1 := by omega
        refine ⟨by omega, ⟨r, ?_, h3⟩, ?_⟩
        · rw [e]; simpa using h2
        · intro m hm r2 hr2
          cases m with
          | zero =>
            simp at hr2
            subst hr2
            simpa using hf
          | succ m2 =>
            simp at hr2
            exact h4 m2 (by omega) r2 hr2

theorem GetFreeRocketFrom_isSome (l : List (Option AFGRocket)) (k : Nat)
    (h : ∃ r, some r ∈ l ∧ r.IsFree = true) : ∃ j, AFGPlayer.GetFreeRocketFrom l k = some j := by
  induction l generalizing k with
  | nil => simp at h
  | cons x xs ih =>
    obtain ⟨r, hr, hfree⟩ := h
    cases x with
    | none =>
      simp only [AFGPlayer.GetFreeRocketFrom]
      simp at hr
      exact ih (k + 1) ⟨r, hr, hfree⟩
    | some r0 =>
      by_cases hf : r0.IsFree = true
      · exact ⟨k, by simp [AFGPlayer.GetFreeRocketFrom, hf]⟩
      · simp only [AFGPlayer.GetFreeRocketFrom, hf]
        simp only [Bool.false_eq_true, if_false]
        simp at hr
        rcases hr with hr | hr
        · subst hr; exact absurd hfree hf
        · exact ih (k + 1) ⟨r, hr, hfree⟩

theorem deref_some_iff (p : AFGPlayer) (i : Nat) (r : AFGRocket) :
    p.deref (some i) = some r ↔ p.RocketInstances[i]? = some (some r) := by
  simp only [AFGPlayer.deref]
  cases h : p.RocketInstances[i]? with
  | none => simp
  | some x => cases x <;> simp

theorem GetFreeRocket_some (p : AFGPlayer) (i : Nat) (h : p.GetFreeRocket = some i) :
    (∃ r, p.RocketInstances[i]? = some (some r) ∧ r.IsFree = true) ∧
      ∀ m, m < i → ∀ r, p.RocketInstances[m]? = some (some r) → r.IsFree = false := by
  have := GetFreeRocketFrom_some p.RocketInstances 0 i h
  simpa using this.2

theorem Client_RemoveRocket_Implementation_eq (p : AFGPlayer) (i : Nat) (r : AFGRocket)
    (h : p.RocketInstances[i]? = some (some r)) :
    p.Client_RemoveRocket_Implementation (some i) = some (p.store i r.MakeFree, []) := by
  simp [AFGPlayer.Client_RemoveRocket_Implementation, (deref_some_iff p i r).2 h]

theorem Client_RemoveRocket_eq (p : AFGPlayer) (i : Nat) (r : AFGRocket)
    (h : p.RocketInstances[i]? = some (some r)) :
    p.Client_RemoveRocket (some i) =
      some (if p.IsLocallyControlled then p.store i r.MakeFree else p,
        [Call.Client_RemoveRocket (some i)]) := by
  by_cases hc : p.IsLocallyControlled = true
  · simp [AFGPlayer.Client_RemoveRocket, hc, Client_RemoveRocket_Implementation_eq p i r h]
  · simp [AFGPlayer.Client_RemoveRocket, hc]

theorem Multicast_FireRocket_Implementation_eq (E : Engine) (p : AFGPlayer) (i : Nat)
    (r : AFGRocket) (Loc : FVector) (Rot : FRotator)
    (h : p.RocketInstances[i]? = some (some r)) :
    p.Multicast_FireRocket_Implementation E (some i) Loc Rot =
      some (if p.LocalRole = ENetRole.ROLE_AutonomousProxy then
          p.store i (r.ApplyCorrection (E.RotatorVector Rot))
        else AFGPlayer.store { p with NumRockets := p.NumRockets - 1 } i
          (r.StartMoving E (E.RotatorVector Rot) Loc), []) := by
  have hd : p.deref (some i) = some r := (deref_some_iff p i r).2 h
  by_cases hc : p.LocalRole = ENetRole.ROLE_AutonomousProxy
  · simp [AFGPlayer.Multicast_FireRocket_Implementation, hc, hd]
  · simp [AFGPlayer.Multicast_FireRocket_Implementation, hc, hd]

theorem Server_FireRocket_Implementation_reject (E : Engine) (p : AFGPlayer)
    (NewRocket : Option Nat) (Loc : FVector) (Rot : FRotator)
    (hc : p.ServerNumRockets - 1 < 0 ∧ p.bUnlimitedRockets = false) :
    p.Server_FireRocket_Implementation E NewRocket Loc Rot = p.Client_RemoveRocket NewRocket := by
  simp only [AFGPlayer.Server_FireRocket_Implementation, if_pos hc]

theorem Server_FireRocket_Implementation_accept (E : Engine) (p : AFGPlayer) (i : Nat)
    (r : AFGRocket) (Loc : FVector) (Rot : FRotator)
    (h : p.RocketInstances[i]? = some (some r))
    (hc : ¬(p.ServerNumRockets - 1 < 0 ∧ p.bUnlimitedRockets = false)) :
    p.Server_FireRocket_Implementation E (some i) Loc Rot =
      some (if p.LocalRole = ENetRole.ROLE_AutonomousProxy then
          AFGPlayer.store { p with ServerNumRockets := p.ServerNumRockets - 1 } i
            (r.ApplyCorrection (E.RotatorVector (p.NewFacingRotation E Rot)))
        else
          AFGPlayer.store { p with ServerNumRockets := p.ServerNumRockets - 1,
                                   NumRockets := p.NumRockets - 1 } i
            (r.StartMoving E (E.RotatorVector (p.NewFacingRotation E Rot)) Loc),
        Call.Multicast_UpdateItemAmount EFGPickupType.Rocket (p.ServerNumRockets - 1) ::
          ((if p.IsLocallyControlled then []
            else [Call.BP_OnNumRocketsChanged (p.ServerNumRockets - 1)]) ++
            [Call.Multicast_FireRocket (some i) Loc (p.NewFacingRotation E Rot)])) := by
  simp only [AFGPlayer.Server_FireRocket_Implementation, if_neg hc]
  have h1 : (AFGPlayer.Multicast_UpdateItemAmount
      { p with ServerNumRockets := p.ServerNumRockets - 1 } EFGPickupType.Rocket
      (p.ServerNumRockets - 1)).1 = { p with ServerNumRockets := p.ServerNumRockets - 1 } := by
    simp only [AFGPlayer.Multicast_UpdateItemAmount, AFGPlayer.Multicast_UpdateItemAmount_Implementation]
    split <;> rfl
  have h2 : (AFGPlayer.Multicast_UpdateItemAmount
      { p with ServerNumRockets := p.ServerNumRockets - 1 } EFGPickupType.Rocket
      (p.ServerNumRockets - 1)).2 =
        Call.Multicast_UpdateItemAmount EFGPickupType.Rocket (p.ServerNumRockets - 1) ::
          (if p.IsLocallyControlled then []
            else [Call.BP_OnNumRocketsChanged (p.ServerNumRockets - 1)]) := by
    by_cases hl : p.bLocallyControlled = true <;>
      simp [AFGPlayer.Multicast_UpdateItemAmount, AFGPlayer.Multicast_UpdateItemAmount_Implementation,
        AFGPlayer.IsLocallyControlled, hl]
  rw [h1, h2]
  have h3 : (AFGPlayer.RocketInstances
      { p with ServerNumRockets := p.ServerNumRockets - 1 })[i]? = some (some r) := h
  simp only [AFGPlayer.Multicast_FireRocket, Multicast_FireRocket_Implementation_eq E _ i r Loc _ h3,
    Option.map_some']
  by_cases hr : p.LocalRole = ENetRole.ROLE_AutonomousProxy <;> simp [hr]

theorem FireRocket_cases (E : Engine) (p : AFGPlayer) (q : AFGPlayer × List Call)
    (h : p.FireRocket E = some q) :
    q = (p, []) ∨ ∃ i r S, FireReady p i r S := by
  unfold AFGPlayer.FireRocket at h
  by_cases h1 : p.FireCooldownElapsed > 0
  · rw [if_pos h1] at h; left; cases h; rfl
  rw [if_neg h1] at h
  by_cases h2 : p.NumRockets ≤ 0 ∧ p.bUnlimitedRockets = false
  · rw [if_pos h2] at h; left; cases h; rfl
  rw [if_neg h2] at h
  cases hn : p.GetNumActiveRockets with
  | none => rw [hn] at h; cases h
  | some n =>
    obtain ⟨hnn, hna⟩ := (GetNumActiveRockets_eq_some p n).1 hn
    rw [hn] at h
    by_cases h3 : n ≥ MaxActiveRockets
    · simp only [if_pos h3] at h; left; cases h; rfl
    simp only [if_neg h3] at h
    cases hg : p.GetFreeRocket with
    | none => rw [hg] at h; left; cases h; rfl
    | some i =>
      obtain ⟨⟨r, hr, hfree⟩, -⟩ := GetFreeRocket_some p i hg
      cases hs : p.PlayerSettings with
      | none => rw [hg] at h; simp only [hs] at h; cases h
      | some S =>
        right
        exact ⟨i, r, S, h1, h2, hnn, by omega, hg, hr, hfree, hs⟩

theorem FireRocket_ready (E : Engine) (p : AFGPlayer) (i : Nat) (r : AFGRocket)
    (S : UFGPlayerSettings) (h : FireReady p i r S) :
    p.FireRocket E =
      if p.LocalRole = ENetRole.ROLE_Authority then
        (AFGPlayer.Server_FireRocket_Implementation E
            { p with FireCooldownElapsed := S.FireCooldown } (some i)
            (p.GetRocketStartLocation E) p.ActorRotation).map
          (fun q => (q.1, Call.Server_FireRocket (some i) (p.GetRocketStartLocation E)
            p.ActorRotation :: q.2 ++ [Call.BP_OnNumRocketsChanged q.1.NumRockets]))
      else if p.LocalRole = ENetRole.ROLE_AutonomousProxy then
        some (AFGPlayer.store
            { p with FireCooldownElapsed := S.FireCooldown, NumRockets := p.NumRockets - 1 } i
            (r.StartMoving E (p.GetActorForwardVector E) (p.GetRocketStartLocation E)),
          [Call.Server_FireRocket (some i) (p.GetRocketStartLocation E) p.ActorRotation,
            Call.BP_OnNumRocketsChanged (p.NumRockets - 1)])
      else some ({ p with FireCooldownElapsed := S.FireCooldown }, []) := by
  have hn : p.GetNumActiveRockets = some (numActive p.RocketInstances) :=
    (GetNumActiveRockets_eq_some p _).2 ⟨h.nonull, rfl⟩
  have h3 : ¬ numActive p.RocketInstances ≥ MaxActiveRockets := by
    have := h.active; omega
  have hd : ∀ p2 : AFGPlayer, p2.RocketInstances = p.RocketInstances →
      p2.deref (some i) = some r := by
    intro p2 e
    rw [deref_some_iff, e]
    exact h.slot
  unfold AFGPlayer.FireRocket
  rw [if_neg h.cooldown, if_neg h.ammo, hn]
  simp only [if_neg h3, h.free, h.settings]
  cases hrole : p.LocalRole <;>
    simp [ENetRole.toNat, AFGPlayer.HasAuthority, AFGPlayer.Server_FireRocket, hd,
      AFGPlayer.store, AFGPlayer.GetRocketStartLocation, AFGPlayer.GetActorForwardVector]
  rfl

theorem FireRocket_effect (E : Engine) (p : AFGPlayer) (q : AFGPlayer × List Call)
    (h : p.FireRocket E = some q) :
    q.1.LocalRole = p.LocalRole ∧ q.1.bUnlimitedRockets = p.bUnlimitedRockets ∧
    q.1.PlayerSettings = p.PlayerSettings ∧
    ((q.1.RocketInstances = p.RocketInstances ∧ q.1.NumRockets = p.NumRockets) ∨
     (∃ i r r2, p.RocketInstances[i]? = some (some r) ∧ r.IsFree = true ∧
        q.1.RocketInstances = p.RocketInstances.set i (some r2) ∧
        NoNull p.RocketInstances ∧ numActive p.RocketInstances < MaxActiveRockets ∧
        (q.1.NumRockets = p.NumRockets ∨
          (q.1.NumRockets = p.NumRockets - 1 ∧
            ¬(p.NumRockets ≤ 0 ∧ p.bUnlimitedRockets = false))))) := by
  rcases FireRocket_cases E p q h with h0 | ⟨i, r, S, hr⟩
  · subst h0; simp
  rw [FireRocket_ready E p i r S hr] at h
  by_cases ha : p.LocalRole = ENetRole.ROLE_Authority
  · rw [if_pos ha] at h
    have hslot : (AFGPlayer.RocketInstances
        { p with FireCooldownElapsed := S.FireCooldown })[i]? = some (some r) := hr.slot
    by_cases hc : (AFGPlayer.ServerNumRockets { p with FireCooldownElapsed := S.FireCooldown }) - 1 < 0
        ∧ (AFGPlayer.bUnlimitedRockets { p with FireCooldownElapsed := S.FireCooldown }) = false
    · rw [Server_FireRocket_Implementation_reject E _ _ _ _ hc,
        Client_RemoveRocket_eq _ i r hslot] at h
      by_cases hl : p.bLocallyControlled = true
      · simp only [AFGPlayer.IsLocallyControlled, hl, if_true, Option.map_some',
          Option.some.injEq] at h
        subst h
        exact ⟨rfl, rfl, rfl, Or.inr ⟨i, r, r.MakeFree, hr.slot, hr.isFree, rfl, hr.nonull, hr.active,
          Or.inl rfl⟩⟩
      · simp only [AFGPlayer.IsLocallyControlled, hl, Bool.false_eq_true, if_false,
          Option.map_some', Option.some.injEq] at h
        subst h
        exact ⟨rfl, rfl, rfl, Or.inl ⟨rfl, rfl⟩⟩
    · rw [Server_FireRocket_Implementation_accept E _ i r _ _ hslot hc] at h
      have hna : ¬ (AFGPlayer.LocalRole { p with FireCooldownElapsed := S.FireCooldown })
          = ENetRole.ROLE_AutonomousProxy := by
        show ¬ p.LocalRole = _
        rw [ha]; decide
      rw [if_neg hna] at h
      simp only [Option.map_some', Option.some.injEq] at h
      subst h
      exact ⟨rfl, rfl, rfl, Or.inr ⟨i, r, _, hr.slot, hr.isFree, rfl, hr.nonull, hr.active,
        Or.inr ⟨rfl, hr.ammo⟩⟩⟩
  · rw [if_neg ha] at h
    by_cases hb : p.LocalRole = ENetRole.ROLE_AutonomousProxy
    · rw [if_pos hb] at h
      simp only [Option.some.injEq] at h
      subst h
      exact ⟨rfl, rfl, rfl, Or.inr ⟨i, r, _, hr.slot, hr.isFree, rfl, hr.nonull, hr.active,
        Or.inr ⟨rfl, hr.ammo⟩⟩⟩
    · rw [if_neg hb] at h
      simp only [Option.some.injEq] at h
      subst h
      exact ⟨rfl, rfl, rfl, Or.inl ⟨rfl, rfl⟩⟩

/-! ## Facts about one rocket -/

theorem Explode_fst (self : Nat) (r : AFGRocket) (a : Option AActor) :
    (AFGRocket.Explode self r a).1 = r.MakeFree := rfl

theorem Explode_none_snd (self : Nat) (r : AFGRocket) :
    (AFGRocket.Explode self r none).2 =
      if r.bHasExplosion then [Call.SpawnEmitterAtLocation self] else [] := by
  simp [AFGRocket.Explode]

theorem Tick_noHit (E : Engine) (self : Nat) (r : AFGRocket) (dt : ℚ) (Hit : FHitResult)
    (hb : Hit.bBlockingHit = false) :
    r.Tick E self dt Hit =
      if E.FSub r.LifeTimeElapsed dt < 0 then
        ((r.Advance E dt).MakeFree, Call.Explode self none ::
          (if r.bHasExplosion then [Call.SpawnEmitterAtLocation self] else []))
      else (r.Advance E dt, []) := by
  have h1 : (r.Advance E dt).LifeTimeElapsed = E.FSub r.LifeTimeElapsed dt := rfl
  have h2 : (r.Advance E dt).bHasExplosion = r.bHasExplosion := rfl
  by_cases h : E.FSub r.LifeTimeElapsed dt < 0
  · simp [AFGRocket.Tick, hb, h1, h, Explode_fst, Explode_none_snd, h2]
  · simp [AFGRocket.Tick, hb, h1, h]

theorem Tick_isFree (E : Engine) (self : Nat) (r : AFGRocket) (dt : ℚ) (Hit : FHitResult) :
    (r.Tick E self dt Hit).1.IsFree = true ∨ (r.Tick E self dt Hit).1.IsFree = r.IsFree := by
  simp only [AFGRocket.Tick, Explode_fst]
  split_ifs <;> first | (left; rfl) | (right; rfl)

theorem EngineTick_isFree (E : Engine) (self : Nat) (r : AFGRocket) (dt : ℚ) (Hit : FHitResult) :
    (r.EngineTick E self dt Hit).1.IsFree = true ∨
      (r.EngineTick E self dt Hit).1.IsFree = r.IsFree := by
  unfold AFGRocket.EngineTick
  split
  · exact Tick_isFree E self r dt Hit
  · exact Or.inr rfl

theorem numActive_set_le (l : List (Option AFGRocket)) (i : Nat) (r r2 : AFGRocket)
    (h : l[i]? = some (some r)) (h2 : r2.IsFree = true ∨ r2.IsFree = r.IsFree) :
    numActive (l.set i (some r2)) ≤ numActive l := by
  have := numActive_set l i r r2 h
  rcases h2 with h2 | h2
  · rw [h2] at this
    simp only [if_true] at this
    split at this <;> omega
  · rw [h2] at this
    omega

theorem numActive_set_le_succ (l : List (Option AFGRocket)) (i : Nat) (r r2 : AFGRocket)
    (h : l[i]? = some (some r)) : numActive (l.set i (some r2)) ≤ numActive l + 1 := by
  have := numActive_set l i r r2 h
  split at this <;> split at this <;> omega

theorem Tick_frame (E : Engine) (p : AFGPlayer) (dt : ℚ) :
    (p.Tick E dt).1.LocalRole = p.LocalRole ∧
    (p.Tick E dt).1.bUnlimitedRockets = p.bUnlimitedRockets ∧
    (p.Tick E dt).1.RocketInstances = p.RocketInstances ∧
    (p.Tick E dt).1.NumRockets = p.NumRockets ∧
    (p.Tick E dt).1.PlayerSettings = p.PlayerSettings ∧
    (p.Tick E dt).1.FireCooldownElapsed = E.FSub p.FireCooldownElapsed dt := by
  unfold AFGPlayer.Tick
  cases hs : p.PlayerSettings with
  | none => simp [hs]
  | some S =>
    by_cases hl : p.bLocallyControlled = true <;> by_cases ha : p.LocalRole = ENetRole.ROLE_Authority <;>
      simp [hs, hl, ha, AFGPlayer.IsLocallyControlled, AFGPlayer.Server_SendLocation,
        AFGPlayer.Server_SendYaw, AFGPlayer.HasAuthority]

theorem PredictPickedUp_frame (p : AFGPlayer) (P : AFGPickup) :
    (p.PredictPickedUp P).1.LocalRole = p.LocalRole ∧
    (p.PredictPickedUp P).1.bUnlimitedRockets = p.bUnlimitedRockets ∧
    (p.PredictPickedUp P).1.RocketInstances = p.RocketInstances ∧
    ((p.PredictPickedUp P).1.NumRockets = p.NumRockets ∨
      (P.PickupType = EFGPickupType.Rocket ∧
        (p.PredictPickedUp P).1.NumRockets = wrap32 (p.NumRockets + P.NumPickedUp))) := by
  unfold AFGPlayer.PredictPickedUp
  cases P.PickupType <;> simp

theorem RocketTick_frame (E : Engine) (p : AFGPlayer) (i : Nat) (dt : ℚ) (Hit : FHitResult) :
    (p.RocketTick E i dt Hit).1.LocalRole = p.LocalRole ∧
    (p.RocketTick E i dt Hit).1.bUnlimitedRockets = p.bUnlimitedRockets ∧
    (p.RocketTick E i dt Hit).1.NumRockets = p.NumRockets ∧
    ((p.RocketTick E i dt Hit).1.RocketInstances = p.RocketInstances ∨
      ∃ r r2, p.RocketInstances[i]? = some (some r) ∧
        (r2.IsFree = true ∨ r2.IsFree = r.IsFree) ∧
        (p.RocketTick E i dt Hit).1.RocketInstances = p.RocketInstances.set i (some r2)) := by
  unfold AFGPlayer.RocketTick
  cases hd : p.deref (some i) with
  | none => simp
  | some r =>
    refine ⟨rfl, rfl, rfl, Or.inr ⟨r, _, (deref_some_iff p i r).1 hd,
      EngineTick_isFree E i r dt Hit, rfl⟩⟩

/-- What one event on a controlling process can do to the pool and to the
predicted ammunition. -/
theorem step_summary (E : Engine) (p : AFGPlayer) (e : Event) (q : AFGPlayer × List Call)
    (hrole : p.LocalRole = ENetRole.ROLE_AutonomousProxy ∨
      (p.LocalRole = ENetRole.ROLE_Authority ∧ e.isBroadcast = false))
    (h : step E p e = some q) :
    q.1.LocalRole = p.LocalRole ∧ q.1.bUnlimitedRockets = p.bUnlimitedRockets ∧
    (q.1.RocketInstances = p.RocketInstances ∨
      (∃ i r r2, p.RocketInstances[i]? = some (some r) ∧
        (r2.IsFree = true ∨ r2.IsFree = r.IsFree) ∧
        q.1.RocketInstances = p.RocketInstances.set i (some r2)) ∨
      (∃ i r r2, p.RocketInstances[i]? = some (some r) ∧
        q.1.RocketInstances = p.RocketInstances.set i (some r2) ∧
        NoNull p.RocketInstances ∧ numActive p.RocketInstances < MaxActiveRockets)) ∧
    (q.1.NumRockets = p.NumRockets ∨
      (q.1.NumRockets = p.NumRockets - 1 ∧ ¬(p.NumRockets ≤ 0 ∧ p.bUnlimitedRockets = false)) ∨
      (∃ P, e = Event.PredictPickedUp P ∧ P.PickupType = EFGPickupType.Rocket ∧
        q.1.NumRockets = wrap32 (p.NumRockets + P.NumPickedUp))) := by
  cases e with
  | FireRocket =>
    obtain ⟨h1, h2, -, h3⟩ := FireRocket_effect E p q h
    refine ⟨h1, h2, ?_, ?_⟩
    · rcases h3 with ⟨h3, -⟩ | ⟨i, r, r2, hs, -, hset, hnn, hact, -⟩
      · exact Or.inl h3
      · exact Or.inr (Or.inr ⟨i, r, r2, hs, hset, hnn, hact⟩)
    · rcases h3 with ⟨-, h3⟩ | ⟨i, r, r2, -, -, -, -, -, h3⟩
      · exact Or.inl h3
      · rcases h3 with h3 | h3
        · exact Or.inl h3
        · exact Or.inr (Or.inl h3)
  | Tick dt =>
    simp only [step, Option.some.injEq] at h
    subst h
    obtain ⟨h1, h2, h3, h4, -, -⟩ := Tick_frame E p dt
    exact ⟨h1, h2, Or.inl h3, Or.inl h4⟩
  | RocketTick i dt Hit =>
    simp only [step, Option.some.injEq] at h
    subst h
    obtain ⟨h1, h2, h3, h4⟩ := RocketTick_frame E p i dt Hit
    refine ⟨h1, h2, ?_, Or.inl h3⟩
    rcases h4 with h4 | h4
    · exact Or.inl h4
    · exact Or.inr (Or.inl ⟨i, h4⟩)
  | Multicast_FireRocket NewRocket Loc Rot =>
    have ha : p.LocalRole = ENetRole.ROLE_AutonomousProxy := by
      rcases hrole with h1 | ⟨-, h1⟩
      · exact h1
      · simp [Event.isBroadcast] at h1
    simp only [step] at h
    cases NewRocket with
    | none =>
      simp only [AFGPlayer.Multicast_FireRocket_Implementation, Option.some.injEq] at h
      subst h
      exact ⟨rfl, rfl, Or.inl rfl, Or.inl rfl⟩
    | some i =>
      cases hd : p.deref (some i) with
      | none => simp [AFGPlayer.Multicast_FireRocket_Implementation, hd] at h
      | some r =>
        have hs := (deref_some_iff p i r).1 hd
        rw [Multicast_FireRocket_Implementation_eq E p i r Loc Rot hs, if_pos ha] at h
        simp only [Option.some.injEq] at h
        subst h
        exact ⟨rfl, rfl, Or.inr (Or.inl ⟨i, r, r.ApplyCorrection (E.RotatorVector Rot), hs,
          Or.inr rfl, rfl⟩), Or.inl rfl⟩
  | Client_RemoveRocket Rocket =>
    simp only [step] at h
    cases Rocket with
    | none => simp [AFGPlayer.Client_RemoveRocket_Implementation] at h
    | some i =>
      cases hd : p.deref (some i) with
      | none => simp [AFGPlayer.Client_RemoveRocket_Implementation, hd] at h
      | some r =>
        have hs := (deref_some_iff p i r).1 hd
        rw [Client_RemoveRocket_Implementation_eq p i r hs] at h
        simp only [Option.some.injEq] at h
        subst h
        exact ⟨rfl, rfl, Or.inr (Or.inl ⟨i, r, r.MakeFree, hs, Or.inl rfl, rfl⟩), Or.inl rfl⟩
  | PredictPickedUp P =>
    simp only [step, Option.some.injEq] at h
    subst h
    obtain ⟨h1, h2, h3, h4⟩ := PredictPickedUp_frame p P
    refine ⟨h1, h2, Or.inl h3, ?_⟩
    rcases h4 with h4 | h4
    · exact Or.inl h4
    · exact Or.inr (Or.inr ⟨P, rfl, h4.1, h4.2⟩)

theorem run_cons_some (E : Engine) (p : AFGPlayer) (e : Event) (es : List Event)
    (q : AFGPlayer × List Call) (h : run E p (e :: es) = some q) :
    ∃ q1 q2, step E p e = some q1 ∧ run E q1.1 es = some q2 ∧ q = (q2.1, q1.2 ++ q2.2) := by
  simp only [run] at h
  cases h1 : step E p e with
  | none => simp [h1] at h
  | some q1 =>
    cases h2 : run E q1.1 es with
    | none => simp [h1, h2] at h
    | some q2 =>
      simp only [h1, h2, Option.some.injEq] at h
      exact ⟨q1, q2, rfl, h2, h.symm⟩

theorem run_active (E : Engine) (p : AFGPlayer) (evs : List Event) (q : AFGPlayer × List Call)
    (hrole : p.LocalRole = ENetRole.ROLE_AutonomousProxy ∨
      (p.LocalRole = ENetRole.ROLE_Authority ∧ ∀ e ∈ evs, e.isBroadcast = false))
    (hnn : NoNull p.RocketInstances) (hact : numActive p.RocketInstances ≤ MaxActiveRockets)
    (h : run E p evs = some q) :
    NoNull q.1.RocketInstances ∧ numActive q.1.RocketInstances ≤ MaxActiveRockets := by
  induction evs generalizing p q with
  | nil =>
    simp only [run, Option.some.injEq] at h
    subst h
    exact ⟨hnn, hact⟩
  | cons e es ih =>
    obtain ⟨q1, q2, h1, h2, rfl⟩ := run_cons_some E p e es q h
    have hrole1 : p.LocalRole = ENetRole.ROLE_AutonomousProxy ∨
        (p.LocalRole = ENetRole.ROLE_Authority ∧ e.isBroadcast = false) := by
      rcases hrole with hr | ⟨hr, hb⟩
      · exact Or.inl hr
      · exact Or.inr ⟨hr, hb e (List.mem_cons_self _ _)⟩
    obtain ⟨hr1, -, hpool, -⟩ := step_summary E p e q1 hrole1 h1
    have hrole2 : q1.1.LocalRole = ENetRole.ROLE_AutonomousProxy ∨
        (q1.1.LocalRole = ENetRole.ROLE_Authority ∧ ∀ e ∈ es, e.isBroadcast = false) := by
      rw [hr1]
      rcases hrole with hr | ⟨hr, hb⟩
      · exact Or.inl hr
      · exact Or.inr ⟨hr, fun e2 he2 => hb e2 (List.mem_cons_of_mem _ he2)⟩
    have hinv : NoNull q1.1.RocketInstances ∧
        numActive q1.1.RocketInstances ≤ MaxActiveRockets := by
      rcases hpool with hp | ⟨i, r, r2, hs, hf, hp⟩ | ⟨i, r, r2, hs, hp, -, hlt⟩
      · rw [hp]; exact ⟨hnn, hact⟩
      · rw [hp]
        exact ⟨NoNull_set _ i r2 hnn, le_trans (numActive_set_le _ i r r2 hs hf) hact⟩
      · rw [hp]
        refine ⟨NoNull_set _ i r2 hnn, ?_⟩
        have := numActive_set_le_succ _ i r r2 hs
        omega
    exact ih q1.1 q2 hrole2 hinv.1 hinv.2 h2

theorem NoNull_getElem (l : List (Option AFGRocket)) (i : Nat) (hnn : NoNull l)
    (hi : i < l.length) : ∃ r, l[i]? = some (some r) := by
  have hm : l[i] ∈ l := List.getElem_mem hi
  cases hx : l[i] with
  | none => exact absurd hx (hnn _ hm)
  | some r => exact ⟨r, by rw [List.getElem?_eq_getElem hi, hx]⟩

theorem FireRocket_defined (E : Engine) (p : AFGPlayer) (hnn : NoNull p.RocketInstances)
    (hs : p.PlayerSettings ≠ none) : ∃ q, p.FireRocket E = some q := by
  by_cases h1 : p.FireCooldownElapsed > 0
  · exact ⟨(p, []), by simp [AFGPlayer.FireRocket, h1]⟩
  by_cases h2 : p.NumRockets ≤ 0 ∧ p.bUnlimitedRockets = false
  · exact ⟨(p, []), by simp only [AFGPlayer.FireRocket, if_neg h1, if_pos h2]⟩
  have hn : p.GetNumActiveRockets = some (numActive p.RocketInstances) :=
    (GetNumActiveRockets_eq_some p _).2 ⟨hnn, rfl⟩
  by_cases h3 : numActive p.RocketInstances ≥ MaxActiveRockets
  · exact ⟨(p, []), by simp only [AFGPlayer.FireRocket, if_neg h1, if_neg h2, hn, if_pos h3]⟩
  cases hg : p.GetFreeRocket with
  | none => exact ⟨(p, []), by simp only [AFGPlayer.FireRocket, if_neg h1, if_neg h2, hn, if_neg h3, hg]⟩
  | some i =>
    obtain ⟨⟨r, hr, hfree⟩, -⟩ := GetFreeRocket_some p i hg
    cases hset : p.PlayerSettings with
    | none => exact absurd hset hs
    | some S =>
      have hready : FireReady p i r S := ⟨h1, h2, hnn, by omega, hg, hr, hfree, hset⟩
      rw [FireRocket_ready E p i r S hready]
      by_cases ha : p.LocalRole = ENetRole.ROLE_Authority
      · rw [if_pos ha]
        have hslot : (AFGPlayer.RocketInstances
            { p with FireCooldownElapsed := S.FireCooldown })[i]? = some (some r) := hr
        by_cases hc : (AFGPlayer.ServerNumRockets { p with FireCooldownElapsed := S.FireCooldown })
            - 1 < 0
            ∧ (AFGPlayer.bUnlimitedRockets { p with FireCooldownElapsed := S.FireCooldown }) = false
        · rw [Server_FireRocket_Implementation_reject E _ _ _ _ hc,
            Client_RemoveRocket_eq _ i r hslot]
          exact ⟨_, rfl⟩
        · rw [Server_FireRocket_Implementation_accept E _ i r _ _ hslot hc]
          exact ⟨_, rfl⟩
      · rw [if_neg ha]
        split <;> exact ⟨_, rfl⟩

/-- A well-formed event on a pool without null slots is handled without a
null dereference, and leaves the pool without null slots and of the same size. -/
theorem step_defined (E : Engine) (p : AFGPlayer) (e : Event)
    (hnn : NoNull p.RocketInstances) (hs : p.PlayerSettings ≠ none)
    (hwf : e.wellFormed p.RocketInstances.length) : ∃ q, step E p e = some q := by
  cases e with
  | FireRocket => exact FireRocket_defined E p hnn hs
  | Tick dt => exact ⟨_, rfl⟩
  | RocketTick i dt Hit => exact ⟨_, rfl⟩
  | Multicast_FireRocket NewRocket Loc Rot =>
    cases NewRocket with
    | none => exact ⟨_, rfl⟩
    | some i =>
      obtain ⟨r, hr⟩ := NoNull_getElem _ i hnn hwf
      exact ⟨_, Multicast_FireRocket_Implementation_eq E p i r Loc Rot hr⟩
  | Client_RemoveRocket Rocket =>
    cases Rocket with
    | none => exact absurd hwf (by simp [Event.wellFormed])
    | some i =>
      obtain ⟨r, hr⟩ := NoNull_getElem _ i hnn hwf
      exact ⟨_, Client_RemoveRocket_Implementation_eq p i r hr⟩
  | PredictPickedUp P => exact ⟨_, rfl⟩

theorem step_pool (E : Engine) (p : AFGPlayer) (e : Event) (q : AFGPlayer × List Call)
    (h : step E p e = some q) :
    q.1.PlayerSettings = p.PlayerSettings ∧
      (q.1.RocketInstances = p.RocketInstances ∨
        ∃ i r2, q.1.RocketInstances = p.RocketInstances.set i (some r2)) := by
  cases e with
  | FireRocket =>
    obtain ⟨-, -, h1, h3⟩ := FireRocket_effect E p q h
    refine ⟨h1, ?_⟩
    rcases h3 with ⟨h3, -⟩ | ⟨i, r, r2, -, -, hset, -⟩
    · exact Or.inl h3
    · exact Or.inr ⟨i, r2, hset⟩
  | Tick dt =>
    simp only [step, Option.some.injEq] at h
    subst h
    obtain ⟨-, -, h3, -, h5, -⟩ := Tick_frame E p dt
    exact ⟨h5, Or.inl h3⟩
  | RocketTick i dt Hit =>
    simp only [step, Option.some.injEq] at h
    subst h
    unfold AFGPlayer.RocketTick
    cases hd : p.deref (some i) with
    | none => exact ⟨rfl, Or.inl rfl⟩
    | some r => exact ⟨rfl, Or.inr ⟨i, _, rfl⟩⟩
  | Multicast_FireRocket NewRocket Loc Rot =>
    simp only [step] at h
    cases NewRocket with
    | none =>
      simp only [AFGPlayer.Multicast_FireRocket_Implementation, Option.some.injEq] at h
      subst h
      exact ⟨rfl, Or.inl rfl⟩
    | some i =>
      cases hd : p.deref (some i) with
      | none => simp [AFGPlayer.Multicast_FireRocket_Implementation, hd] at h
      | some r =>
        have hs := (deref_some_iff p i r).1 hd
        rw [Multicast_FireRocket_Implementation_eq E p i r Loc Rot hs] at h
        simp only [Option.some.injEq] at h
        subst h
        split
        · exact ⟨rfl, Or.inr ⟨i, _, rfl⟩⟩
        · exact ⟨rfl, Or.inr ⟨i, _, rfl⟩⟩
  | Client_RemoveRocket Rocket =>
    simp only [step] at h
    cases Rocket with
    | none => simp [AFGPlayer.Client_RemoveRocket_Implementation] at h
    | some i =>
      cases hd : p.deref (some i) with
      | none => simp [AFGPlayer.Client_RemoveRocket_Implementation, hd] at h
      | some r =>
        have hs := (deref_some_iff p i r).1 hd
        rw [Client_RemoveRocket_Implementation_eq p i r hs] at h
        simp only [Option.some.injEq] at h
        subst h
        exact ⟨rfl, Or.inr ⟨i, _, rfl⟩⟩
  | PredictPickedUp P =>
    simp only [step, Option.some.injEq] at h
    subst h
    unfold AFGPlayer.PredictPickedUp
    cases P.PickupType <;> exact ⟨rfl, Or.inl rfl⟩

theorem run_defined (E : Engine) (p : AFGPlayer) (evs : List Event)
    (hnn : NoNull p.RocketInstances) (hs : p.PlayerSettings ≠ none)
    (hwf : ∀ e ∈ evs, e.wellFormed p.RocketInstances.length) : ∃ q, run E p evs = some q := by
  induction evs generalizing p with
  | nil => exact ⟨_, rfl⟩
  | cons e es ih =>
    obtain ⟨q1, h1⟩ := step_defined E p e hnn hs (hwf e (List.mem_cons_self _ _))
    obtain ⟨hset, hpool⟩ := step_pool E p e q1 h1
    have hlen : q1.1.RocketInstances.length = p.RocketInstances.length := by
      rcases hpool with hp | ⟨i, r2, hp⟩ <;> rw [hp]
      simp
    have hnn1 : NoNull q1.1.RocketInstances := by
      rcases hpool with hp | ⟨i, r2, hp⟩ <;> rw [hp]
      · exact hnn
      · exact NoNull_set _ i r2 hnn
    obtain ⟨q2, h2⟩ := ih q1.1 hnn1 (by rw [hset]; exact hs)
      (fun e2 he2 => by rw [hlen]; exact hwf e2 (List.mem_cons_of_mem _ he2))
    exact ⟨(q2.1, q1.2 ++ q2.2), by simp [run, h1, h2]⟩

theorem wrap32_of_range (x : Int) (h1 : -2147483648 ≤ x) (h2 : x ≤ 2147483647) :
    wrap32 x = x := by
  unfold wrap32
  omega

theorem wrap32_sub_wrap32 (x d : Int) : wrap32 (wrap32 x - d) = wrap32 (x - d) := by
  unfold wrap32
  omega

theorem pickupTotal_le_cons (e : Event) (es : List Event)
    (hpick : ∀ P, e = Event.PredictPickedUp P → 0 ≤ P.NumPickedUp) :
    pickupTotal es ≤ pickupTotal (e :: es) := by
  cases e with
  | PredictPickedUp P =>
    obtain ⟨t, n⟩ := P
    have hn : 0 ≤ n := hpick ⟨t, n⟩ rfl
    cases t <;> simp only [pickupTotal] <;> omega
  | _ => simp [pickupTotal]

theorem pickupTotal_rocket (P : AFGPickup) (es : List Event)
    (h : P.PickupType = EFGPickupType.Rocket) :
    pickupTotal (Event.PredictPickedUp P :: es) = P.NumPickedUp + pickupTotal es := by
  obtain ⟨t, n⟩ := P
  simp only at h
  subst h
  rfl

theorem pickupTotal_nonneg (es : List Event)
    (hpick : ∀ P, Event.PredictPickedUp P ∈ es → 0 ≤ P.NumPickedUp) : 0 ≤ pickupTotal es := by
  induction es with
  | nil => simp [pickupTotal]
  | cons e es ih =>
    have h1 := ih (fun P hP => hpick P (List.mem_cons_of_mem _ hP))
    have h2 := pickupTotal_le_cons e es
      (fun P hP => hpick P (by rw [hP]; exact List.mem_cons_self _ _))
    omega

theorem run_ammo (E : Engine) (p : AFGPlayer) (evs : List Event) (q : AFGPlayer × List Call)
    (hrole : p.LocalRole = ENetRole.ROLE_AutonomousProxy ∨
      (p.LocalRole = ENetRole.ROLE_Authority ∧ ∀ e ∈ evs, e.isBroadcast = false))
    (hunl : p.bUnlimitedRockets = false) (hn : 0 ≤ p.NumRockets)
    (hpick : ∀ P, Event.PredictPickedUp P ∈ evs → 0 ≤ P.NumPickedUp)
    (hmax : p.NumRockets + pickupTotal evs ≤ 2147483647)
    (h : run E p evs = some q) : 0 ≤ q.1.NumRockets := by
  induction evs generalizing p q with
  | nil =>
    simp only [run, Option.some.injEq] at h
    subst h
    exact hn
  | cons e es ih =>
    obtain ⟨q1, q2, h1, h2, rfl⟩ := run_cons_some E p e es q h
    have hrole1 : p.LocalRole = ENetRole.ROLE_AutonomousProxy ∨
        (p.LocalRole = ENetRole.ROLE_Authority ∧ e.isBroadcast = false) := by
      rcases hrole with hr | ⟨hr, hb⟩
      · exact Or.inl hr
      · exact Or.inr ⟨hr, hb e (List.mem_cons_self _ _)⟩
    obtain ⟨hr1, hu1, -, hammo⟩ := step_summary E p e q1 hrole1 h1
    have hrole2 : q1.1.LocalRole = ENetRole.ROLE_AutonomousProxy ∨
        (q1.1.LocalRole = ENetRole.ROLE_Authority ∧ ∀ e ∈ es, e.isBroadcast = false) := by
      rw [hr1]
      rcases hrole with hr | ⟨hr, hb⟩
      · exact Or.inl hr
      · exact Or.inr ⟨hr, fun e2 he2 => hb e2 (List.mem_cons_of_mem _ he2)⟩
    have htot := pickupTotal_nonneg es (fun P hP => hpick P (List.mem_cons_of_mem _ hP))
    have hle := pickupTotal_le_cons e es
      (fun P hP => hpick P (by rw [hP]; exact List.mem_cons_self _ _))
    have hn1 : 0 ≤ q1.1.NumRockets ∧ q1.1.NumRockets + pickupTotal es ≤ 2147483647 := by
      rcases hammo with ha | ⟨ha, hg⟩ | ⟨P, he, ht, ha⟩
      · rw [ha]
        exact ⟨hn, by omega⟩
      · rw [ha]
        have : ¬ p.NumRockets ≤ 0 := fun hle => hg ⟨hle, hunl⟩
        exact ⟨by omega, by omega⟩
      · have hP := hpick P (by rw [he]; exact List.mem_cons_self _ _)
        have hsum := pickupTotal_rocket P es ht
        rw [he, hsum] at hmax
        rw [ha, wrap32_of_range _ (by omega) (by omega)]
        exact ⟨by omega, by omega⟩
    exact ih q1.1 q2 hrole2 (by rw [hu1]; exact hunl) hn1.1
      (fun P hP => hpick P (List.mem_cons_of_mem _ hP)) hn1.2 h2

theorem numActive_of_all_free (l : List (Option AFGRocket))
    (hfree : ∀ x ∈ l, ∃ r, x = some r ∧ r.IsFree = true) : NoNull l ∧ numActive l = 0 := by
  constructor
  · intro x hx
    obtain ⟨r, hr, -⟩ := hfree x hx
    simp [hr]
  · simp only [numActive, List.countP_eq_zero]
    intro x hx
    obtain ⟨r, hr, hf⟩ := hfree x hx
    simp [hr, slotActive, hf]

theorem player0_all_free (Role : ENetRole) (bLocal : Bool) (n : Int) :
    ∀ x ∈ AFGPlayer.RocketInstances { player0 Role bLocal with NumRockets := n },
      ∃ r, x = some r ∧ r.IsFree = true := by
  intro x hx
  have : x = some rocket0 := by
    simp only [player0, List.mem_replicate] at hx
    exact hx.2
  exact ⟨rocket0, this, rfl⟩

theorem events1_wellFormed : ∀ e ∈ events1, e.wellFormed 8 := by
  intro e he
  simp only [events1, List.mem_cons, List.mem_singleton, List.not_mem_nil, or_false] at he
  rcases he with rfl | rfl | rfl | rfl | rfl | rfl <;> simp [Event.wellFormed]

theorem host1_all_free :
    ∀ x ∈ host1.RocketInstances, ∃ r, x = some r ∧ r.IsFree = true := by
  intro x hx
  have : x = some rocket0 := by
    simp only [host1, player0, List.mem_replicate] at hx
    exact hx.2
  exact ⟨rocket0, this, rfl⟩

theorem host1_controls : Controls host1 events2 := by
  refine ⟨rfl, Or.inr ⟨rfl, ?_⟩⟩
  intro e he
  simp only [events2, List.mem_cons, List.mem_singleton, List.not_mem_nil, or_false] at he
  rcases he with rfl | rfl | rfl | rfl <;> rfl

theorem events2_wellFormed : ∀ e ∈ events2, e.wellFormed 8 := by
  intro e he
  simp only [events2, List.mem_cons, List.mem_singleton, List.not_mem_nil, or_false] at he
  rcases he with rfl | rfl | rfl | rfl <;> simp [Event.wellFormed]

/-! ## The claims -/

/-- C1: on a process that controls the vehicle, starting from a pool whose
projectiles are all Free, after every sequence of fire requests, vehicle and
projectile ticks, received fire broadcasts, rejections and pickups the number
of projectiles that are not Free, as `GetNumActiveRockets` counts it, is at most
`MaxActiveRockets`, which is 3.  Moreover such a sequence is handled without a
null dereference when the settings exist and the rocket pointers it carries
name rockets of the pool. -/
theorem C1_active_rockets_never_exceed_max (E : Engine) (p : AFGPlayer) (evs : List Event)
    (hctl : Controls p evs)
    (hfree : ∀ x ∈ p.RocketInstances, ∃ r, x = some r ∧ r.IsFree = true) :
    (∀ q, run E p evs = some q →
      ∃ n, q.1.GetNumActiveRockets = some n ∧ n ≤ MaxActiveRockets ∧ MaxActiveRockets = 3) ∧
    (p.PlayerSettings ≠ none → (∀ e ∈ evs, e.wellFormed p.RocketInstances.length) →
      ∃ q, run E p evs = some q) := by
  obtain ⟨hnn, h0⟩ := numActive_of_all_free _ hfree
  constructor
  · intro q hq
    obtain ⟨h1, h2⟩ := run_active E p evs q hctl.2 hnn (by rw [h0]; exact Nat.zero_le _) hq
    exact ⟨_, (GetNumActiveRockets_eq_some _ _).2 ⟨h1, rfl⟩, h2, rfl⟩
  · intro hs hwf
    exact run_defined E p evs hnn hs hwf

/-- C1 (witness): the owning client of scenario A, run through `events1`, and
the listen-server host, run through `events2`. -/
theorem C1_active_rockets_never_exceed_max_witness :
    (Controls client1 events1 ∧
      (∃ q, run engine0 client1 events1 = some q) ∧
      (∀ q, run engine0 client1 events1 = some q →
        ∃ n, q.1.GetNumActiveRockets = some n ∧ n ≤ MaxActiveRockets ∧ MaxActiveRockets = 3)) ∧
    (Controls host1 events2 ∧
      (∃ q, run engine0 host1 events2 = some q) ∧
      (∀ q, run engine0 host1 events2 = some q →
        ∃ n, q.1.GetNumActiveRockets = some n ∧ n ≤ MaxActiveRockets ∧ MaxActiveRockets = 3)) :=
  ⟨⟨⟨rfl, Or.inl rfl⟩,
      (C1_active_rockets_never_exceed_max engine0 client1 events1 ⟨rfl, Or.inl rfl⟩
        (player0_all_free _ _ _)).2 (by simp [client1, player0]) events1_wellFormed,
      (C1_active_rockets_never_exceed_max engine0 client1 events1 ⟨rfl, Or.inl rfl⟩
        (player0_all_free _ _ _)).1⟩,
    ⟨host1_controls,
      (C1_active_rockets_never_exceed_max engine0 host1 events2 host1_controls
        host1_all_free).2 (by simp [host1, player0]) events2_wellFormed,
      (C1_active_rockets_never_exceed_max engine0 host1 events2 host1_controls
        host1_all_free).1⟩⟩

/-- C2 (counterexample): two runs in which `NumRockets` starts not negative,
with unlimited ammunition off, and ends negative.  On a process that only
observes the vehicle (a simulated proxy) with `NumRockets` 0, one received fire
broadcast leaves `NumRockets` at -1.  On the owning client with `NumRockets` at
the greatest `int32`, 2147483647, one rocket pickup of quantity 1 leaves
`NumRockets` at -2147483648. -/
theorem C2_counterexample_predicted_ammo_goes_negative :
    ((player0 ENetRole.ROLE_SimulatedProxy false).bUnlimitedRockets = false ∧
      0 ≤ (player0 ENetRole.ROLE_SimulatedProxy false).NumRockets ∧
      ∃ q, run engine0 (player0 ENetRole.ROLE_SimulatedProxy false)
          [Event.Multicast_FireRocket (some 0) ⟨0, 0, 0⟩ ⟨0, 0, 0⟩] = some q ∧
        q.1.NumRockets = -1) ∧
    (clientFull.bUnlimitedRockets = false ∧ clientFull.NumRockets = 2147483647 ∧
      Controls clientFull [Event.PredictPickedUp ⟨EFGPickupType.Rocket, 1⟩] ∧
      ∃ q, run engine0 clientFull [Event.PredictPickedUp ⟨EFGPickupType.Rocket, 1⟩] = some q ∧
        q.1.NumRockets = -2147483648) :=
  ⟨⟨rfl, by decide, _, rfl, rfl⟩, rfl, rfl, ⟨rfl, Or.inl rfl⟩, _, rfl, by decide⟩

/-- C2 (amended): on a process that controls the vehicle, with unlimited
ammunition off and `NumRockets` not negative at the start, after every sequence
of ticks, fire requests, received fire broadcasts, rejections and pickups of
non-negative quantity in which `NumRockets` at the start plus the rockets
picked up do not exceed the greatest `int32`, 2147483647, `NumRockets` is not
negative.  Moreover such a sequence is handled without a null dereference when
the pool has no null slot, the settings exist and the rocket pointers it
carries name rockets of the pool. -/
theorem C2_predicted_ammo_never_negative_on_controller (E : Engine) (p : AFGPlayer)
    (evs : List Event) (hctl : Controls p evs)
    (hunl : p.bUnlimitedRockets = false) (hn : 0 ≤ p.NumRockets)
    (hpick : ∀ P, Event.PredictPickedUp P ∈ evs → 0 ≤ P.NumPickedUp)
    (hmax : p.NumRockets + pickupTotal evs ≤ 2147483647) :
    (∀ q, run E p evs = some q → 0 ≤ q.1.NumRockets) ∧
    (NoNull p.RocketInstances → p.PlayerSettings ≠ none →
      (∀ e ∈ evs, e.wellFormed p.RocketInstances.length) → ∃ q, run E p evs = some q) :=
  ⟨fun q hq => run_ammo E p evs q hctl.2 hunl hn hpick hmax hq,
    fun hnn hs hwf => run_defined E p evs hnn hs hwf⟩

/-- C2 (witness): the owning client of scenario A, run through `events1`, and
the listen-server host, run through `events2`. -/
theorem C2_predicted_ammo_never_negative_on_controller_witness :
    (Controls client1 events1 ∧ client1.bUnlimitedRockets = false ∧ 0 ≤ client1.NumRockets ∧
      client1.NumRockets + pickupTotal events1 ≤ 2147483647 ∧
      (∃ q, run engine0 client1 events1 = some q) ∧
      (∀ q, run engine0 client1 events1 = some q → 0 ≤ q.1.NumRockets)) ∧
    (Controls host1 events2 ∧ host1.bUnlimitedRockets = false ∧ 0 ≤ host1.NumRockets ∧
      host1.NumRockets + pickupTotal events2 ≤ 2147483647 ∧
      (∃ q, run engine0 host1 events2 = some q) ∧
      (∀ q, run engine0 host1 events2 = some q → 0 ≤ q.1.NumRockets)) :=
  ⟨⟨⟨rfl, Or.inl rfl⟩, rfl, by decide, by decide,
      (C2_predicted_ammo_never_negative_on_controller engine0 client1 events1 ⟨rfl, Or.inl rfl⟩
        rfl (by decide)
        (by
          intro P hP
          simp only [events1, List.mem_cons, List.mem_singleton, List.not_mem_nil, or_false,
            Event.PredictPickedUp.injEq] at hP
          simp at hP
          subst hP
          decide) (by decide)).2
        (numActive_of_all_free _ (player0_all_free _ _ _)).1 (by simp [client1, player0])
        events1_wellFormed,
      (C2_predicted_ammo_never_negative_on_controller engine0 client1 events1 ⟨rfl, Or.inl rfl⟩
        rfl (by decide)
        (by
          intro P hP
          simp only [events1, List.mem_cons, List.mem_singleton, List.not_mem_nil, or_false,
            Event.PredictPickedUp.injEq] at hP
          simp at hP
          subst hP
          decide) (by decide)).1⟩,
    ⟨host1_controls, rfl, by decide, by decide,
      (C2_predicted_ammo_never_negative_on_controller engine0 host1 events2 host1_controls
        rfl (by decide)
        (by
          intro P hP
          simp only [events2, List.mem_cons, List.mem_singleton, List.not_mem_nil, or_false,
            Event.PredictPickedUp.injEq] at hP
          simp at hP
          subst hP
          decide) (by decide)).2
        (numActive_of_all_free _ host1_all_free).1 (by simp [host1, player0])
        events2_wellFormed,
      (C2_predicted_ammo_never_negative_on_controller engine0 host1 events2 host1_controls
        rfl (by decide)
        (by
          intro P hP
          simp only [events2, List.mem_cons, List.mem_singleton, List.not_mem_nil, or_false,
            Event.PredictPickedUp.injEq] at hP
          simp at hP
          subst hP
          decide) (by decide)).1⟩⟩

/-- C3: when the authority handles a fire request for rocket `i` while
`ServerNumRockets` is 0 and unlimited ammunition is off, it leaves
`ServerNumRockets` unchanged, makes no `Multicast_FireRocket` call and makes
exactly one call, the rejection `Client_RemoveRocket` naming rocket `i`; when the
requester is a remote client the authority's copy does not change at all, and
when the authority is itself the requester (`hhost`) the rejection runs at once
on its copy.  On the requester the rejection makes rocket `i` Free, leaves every
other slot as it was and leaves the predicted ammunition `NumRockets` as it
was, so the decrement made at prediction time is not given back. -/
theorem C3_empty_authority_rejects (E : Engine) (a c : AFGPlayer) (i : Nat) (r : AFGRocket)
    (Loc : FVector) (Rot : FRotator)
    (hzero : a.ServerNumRockets = 0) (hunl : a.bUnlimitedRockets = false)
    (hslot : c.RocketInstances[i]? = some (some r))
    (hhost : a.IsLocallyControlled = true → a = c) :
    ∃ a2 c2 calls,
      a.Server_FireRocket_Implementation E (some i) Loc Rot = some (a2, calls) ∧
      calls = [Call.Client_RemoveRocket (some i)] ∧
      fireBroadcasts calls = [] ∧ rejections calls = [some i] ∧
      a2.ServerNumRockets = a.ServerNumRockets ∧
      (a.IsLocallyControlled = false → a2 = a) ∧
      (a.IsLocallyControlled = true → a2 = c2) ∧
      c.Client_RemoveRocket_Implementation (some i) = some (c2, []) ∧
      c2.RocketInstances[i]? = some (some r.MakeFree) ∧ r.MakeFree.IsFree = true ∧
      (∀ j, j ≠ i → c2.RocketInstances[j]? = c.RocketInstances[j]?) ∧
      c2.NumRockets = c.NumRockets := by
  have hc : a.ServerNumRockets - 1 < 0 ∧ a.bUnlimitedRockets = false := by
    rw [hzero]; exact ⟨by decide, hunl⟩
  have hi : i < c.RocketInstances.length := by
    by_contra hlt
    rw [List.getElem?_eq_none (not_lt.mp hlt)] at hslot
    cases hslot
  have hc2 : (c.store i r.MakeFree).RocketInstances[i]? = some (some r.MakeFree) := by
    simp [AFGPlayer.store, hi]
  have hother : ∀ j, j ≠ i →
      (c.store i r.MakeFree).RocketInstances[j]? = c.RocketInstances[j]? := by
    intro j hj
    simp [AFGPlayer.store, List.getElem?_set_ne (Ne.symm hj)]
  by_cases hl : a.IsLocallyControlled = true
  · have hac := hhost hl
    subst hac
    refine ⟨a.store i r.MakeFree, a.store i r.MakeFree, _, ?_, rfl, rfl, rfl, rfl, ?_, ?_,
      Client_RemoveRocket_Implementation_eq a i r hslot, hc2, rfl, hother, rfl⟩
    · rw [Server_FireRocket_Implementation_reject E a _ _ _ hc, Client_RemoveRocket_eq a i r hslot,
        if_pos hl]
    · intro h; rw [hl] at h; cases h
    · intro _; rfl
  · refine ⟨a, c.store i r.MakeFree, _, ?_, rfl, rfl, rfl, rfl, ?_, ?_,
      Client_RemoveRocket_Implementation_eq c i r hslot, hc2, rfl, hother, rfl⟩
    · rw [Server_FireRocket_Implementation_reject E a _ _ _ hc]
      simp only [AFGPlayer.Client_RemoveRocket, if_neg hl]
    · intro _; rfl
    · intro h; exact absurd h hl

/-- C3 (witness): scenario B.  The client of scenario A has fired (`client2`:
rocket 0 in flight, predicted ammunition 0 after the decrement from 1) while the
authority's copy `server0` holds authoritative ammunition 0. -/
theorem C3_empty_authority_rejects_witness :
    server0.ServerNumRockets = 0 ∧ server0.bUnlimitedRockets = false ∧ client1.NumRockets = 1 ∧
    ∃ a2 c2 calls,
      server0.Server_FireRocket_Implementation engine0 (some 0) ⟨0, 0, 0⟩ ⟨0, 0, 0⟩
        = some (a2, calls) ∧
      calls = [Call.Client_RemoveRocket (some 0)] ∧
      fireBroadcasts calls = [] ∧ rejections calls = [some 0] ∧
      a2.ServerNumRockets = server0.ServerNumRockets ∧
      (server0.IsLocallyControlled = false → a2 = server0) ∧
      (server0.IsLocallyControlled = true → a2 = c2) ∧
      client2.Client_RemoveRocket_Implementation (some 0) = some (c2, []) ∧
      c2.RocketInstances[0]? = some (some (AFGRocket.MakeFree
        (rocket0.StartMoving engine0 (client1.GetActorForwardVector engine0)
          (client1.GetRocketStartLocation engine0)))) ∧
      (AFGRocket.MakeFree
        (rocket0.StartMoving engine0 (client1.GetActorForwardVector engine0)
          (client1.GetRocketStartLocation engine0))).IsFree = true ∧
      (∀ j, j ≠ 0 → c2.RocketInstances[j]? = client2.RocketInstances[j]?) ∧
      c2.NumRockets = client2.NumRockets :=
  ⟨rfl, rfl, rfl,
    C3_empty_authority_rejects engine0 server0 client2 0 _ ⟨0, 0, 0⟩ ⟨0, 0, 0⟩ rfl rfl rfl
      (fun h => absurd h (by decide))⟩

theorem healthBroadcasts_append (l1 l2 : List Call) :
    healthBroadcasts (l1 ++ l2) = healthBroadcasts l1 ++ healthBroadcasts l2 := by
  induction l1 with
  | nil => rfl
  | cons c cs ih => cases c <;> simp [healthBroadcasts, ih]

theorem wrap32_wrap32 (x : Int) : wrap32 (wrap32 x) = wrap32 x := by
  unfold wrap32
  omega

theorem HandleHits_spec (a : AFGPlayer) (rockets : List (Option Nat))
    (hH : wrap32 a.ServerHealth = a.ServerHealth) :
    (a.HandleHits rockets).1.ServerHealth =
      wrap32 (a.ServerHealth - rockets.length * a.RocketDamage) ∧
    (a.HandleHits rockets).1.RocketDamage = a.RocketDamage ∧
    healthBroadcasts (a.HandleHits rockets).2 =
      (List.range rockets.length).map
        (fun k : Nat => wrap32 (a.ServerHealth - ((k : Int) + 1) * a.RocketDamage)) := by
  induction rockets generalizing a with
  | nil => simp [AFGPlayer.HandleHits, healthBroadcasts, hH]
  | cons x xs ih =>
    have e1 : (a.Server_OntHit_Implementation x).1.ServerHealth =
        wrap32 (a.ServerHealth - a.RocketDamage) := rfl
    have e2 : (a.Server_OntHit_Implementation x).1.RocketDamage = a.RocketDamage := rfl
    have e3 : healthBroadcasts (a.Server_OntHit_Implementation x).2
        = [wrap32 (a.ServerHealth - a.RocketDamage)] := rfl
    obtain ⟨h1, h2, h3⟩ := ih (a.Server_OntHit_Implementation x).1
      (by rw [e1]; exact wrap32_wrap32 _)
    refine ⟨?_, ?_, ?_⟩
    · simp only [AFGPlayer.HandleHits, h1, e1, e2, List.length_cons, wrap32_sub_wrap32]
      congr 1
      push_cast
      ring
    · simp only [AFGPlayer.HandleHits, h2, e2]
    · simp only [AFGPlayer.HandleHits, healthBroadcasts_append, h3, e1, e2, e3, List.length_cons,
        List.range_succ_eq_map, List.map_cons, List.map_map, List.singleton_append,
        wrap32_sub_wrap32]
      congr 1
      · simp
      · apply List.map_congr_left
        intro k _
        simp only [Function.comp]
        congr 1
        push_cast
        ring

theorem HandleHits_health (a : AFGPlayer) (x : Option Nat) (xs : List (Option Nat)) :
    (a.HandleHits (x :: xs)).1.Health = (a.HandleHits (x :: xs)).1.ServerHealth := by
  induction xs generalizing a x with
  | nil => rfl
  | cons y ys ih => exact ih (a.Server_OntHit_Implementation x).1 y

/-- C5 (counterexample): on the authority's copy of a vehicle with authoritative
health 100 whose rockets do 2000000000 damage, two hit reports leave the
authoritative health at 294967396 and the broadcasts carry -1999999900 and
294967396, where `H - 2*D` is -3999999900: the second subtraction leaves the
`int32` range. -/
theorem C5_counterexample_damage_leaves_int32 :
    serverHeavy.ServerHealth = 100 ∧ serverHeavy.RocketDamage = 2000000000 ∧
    (serverHeavy.HandleHits [some 0, some 1]).1.ServerHealth = 294967396 ∧
    healthBroadcasts (serverHeavy.HandleHits [some 0, some 1]).2 = [-1999999900, 294967396] ∧
    (serverHeavy.HandleHits [some 0, some 1]).1.Health = 294967396 ∧
    serverHeavy.ServerHealth - 2 * serverHeavy.RocketDamage = -3999999900 :=
  ⟨rfl, rfl, by decide, by decide, by decide, by decide⟩

/-- C5 (amended): after the authority has handled `n` hit reports for a vehicle
whose authoritative health was the `int32` value `H`, with damage `D` per hit,
the authoritative health is `H - n*D` reduced to the `int32` range, which is
`H - n*D` itself whenever that is an `int32` value; the broadcasts made carry
`H - D`, `H - 2D`, ..., `H - n*D`, each reduced to the `int32` range, in this
order, so the last one carries the authoritative health, and the authority's
own display health is that value too; every process that applies a broadcast
of value `v` has `Health` equal to `v` whatever its `Health` was; in particular
after two hits, when `H - 2D` is an `int32` value, the authority holds
`H - 2D`, the last broadcast carries `H - 2D` and every process that applies it
shows `H - 2D`. -/
theorem C5_damage_is_authoritative_within_int32 (a o : AFGPlayer) (rockets : List (Option Nat))
    (Rocket r1 r2 : Option Nat) (v : Int)
    (hH : -2147483648 ≤ a.ServerHealth ∧ a.ServerHealth ≤ 2147483647) :
    (a.HandleHits rockets).1.ServerHealth =
      wrap32 (a.ServerHealth - rockets.length * a.RocketDamage) ∧
    healthBroadcasts (a.HandleHits rockets).2 =
      (List.range rockets.length).map
        (fun k : Nat => wrap32 (a.ServerHealth - ((k : Int) + 1) * a.RocketDamage)) ∧
    (healthBroadcasts (a.HandleHits (Rocket :: rockets)).2).getLast? =
      some (a.HandleHits (Rocket :: rockets)).1.ServerHealth ∧
    (a.HandleHits (Rocket :: rockets)).1.Health =
      (a.HandleHits (Rocket :: rockets)).1.ServerHealth ∧
    (o.Multicast_OntHit_Implementation Rocket v).1.Health = v ∧
    ((-2147483648 ≤ a.ServerHealth - rockets.length * a.RocketDamage ∧
        a.ServerHealth - rockets.length * a.RocketDamage ≤ 2147483647) →
      (a.HandleHits rockets).1.ServerHealth =
        a.ServerHealth - rockets.length * a.RocketDamage) ∧
    ((-2147483648 ≤ a.ServerHealth - 2 * a.RocketDamage ∧
        a.ServerHealth - 2 * a.RocketDamage ≤ 2147483647) →
      (a.HandleHits [r1, r2]).1.ServerHealth = a.ServerHealth - 2 * a.RocketDamage ∧
      (healthBroadcasts (a.HandleHits [r1, r2]).2).getLast? =
        some (a.ServerHealth - 2 * a.RocketDamage) ∧
      (a.HandleHits [r1, r2]).1.Health = a.ServerHealth - 2 * a.RocketDamage ∧
      (o.Multicast_OntHit_Implementation r2 (a.ServerHealth - 2 * a.RocketDamage)).1.Health =
        a.ServerHealth - 2 * a.RocketDamage) := by
  have hw : wrap32 a.ServerHealth = a.ServerHealth := wrap32_of_range _ hH.1 hH.2
  obtain ⟨h1, -, h3⟩ := HandleHits_spec a rockets hw
  obtain ⟨k1, -, k3⟩ := HandleHits_spec a (Rocket :: rockets) hw
  obtain ⟨t1, -, t3⟩ := HandleHits_spec a [r1, r2] hw
  have t1b : (a.HandleHits [r1, r2]).1.ServerHealth =
      wrap32 (a.ServerHealth - 2 * a.RocketDamage) := by
    rw [t1]
    simp
  refine ⟨h1, h3, ?_, HandleHits_health a Rocket rockets, rfl, ?_, ?_⟩
  · rw [k3, k1, List.length_cons, List.range_succ, List.map_append]
    simp
  · intro hr
    rw [h1, wrap32_of_range _ hr.1 hr.2]
  · intro hr
    have hv := wrap32_of_range _ hr.1 hr.2
    refine ⟨by rw [t1b, hv], ?_, by rw [HandleHits_health, t1b, hv], rfl⟩
    rw [t3, ← hv]
    simp [List.range_succ]

/-- C5 (witness): the authority's copy of the default vehicle, health 100 and
damage 10, after one, two and three hit reports. -/
theorem C5_damage_is_authoritative_within_int32_witness :
    (-2147483648 ≤ server0.ServerHealth ∧ server0.ServerHealth ≤ 2147483647) ∧
    (-2147483648 ≤ server0.ServerHealth - 2 * server0.RocketDamage ∧
      server0.ServerHealth - 2 * server0.RocketDamage ≤ 2147483647) ∧
    (server0.HandleHits [some 0, some 1]).1.ServerHealth = 80 ∧
    (healthBroadcasts (server0.HandleHits [some 0, some 1]).2).getLast? = some 80 ∧
    (server0.HandleHits [some 0, some 1]).1.Health = 80 ∧
    ((player0 ENetRole.ROLE_SimulatedProxy false).Multicast_OntHit_Implementation
      (some 1) 80).1.Health = 80 :=
  ⟨by decide, by decide,
    ((C5_damage_is_authoritative_within_int32 server0
      (player0 ENetRole.ROLE_SimulatedProxy false) [some 2] (some 0) (some 0) (some 1) 80
      (by decide)).2.2.2.2.2.2 (by decide))⟩

/-- C6: for every call `Explode(CollidedActor)` on a process, the hit reports
sent are exactly one report, by the vehicle hit and naming this rocket, when
`CollidedActor` is a vehicle that is locally controlled on this process, and
none when it is a vehicle not locally controlled here, an actor that is not a
vehicle, or absent; in all cases the rocket ends Free, with ticking disabled
and hidden. -/
theorem C6_hit_report_only_from_local_victim (self : Nat) (r : AFGRocket)
    (CollidedActor : Option AActor) :
    hitReports (AFGRocket.Explode self r CollidedActor).2 =
      (match CollidedActor with
        | some (AActor.Player HitPlayer true) => [(HitPlayer, self)]
        | some (AActor.Player _ false) => []
        | some AActor.Other => []
        | none => []) ∧
    (hitReports (AFGRocket.Explode self r CollidedActor).2 ≠ [] ↔
      ∃ HitPlayer, CollidedActor = some (AActor.Player HitPlayer true)) ∧
    (AFGRocket.Explode self r CollidedActor).1.IsFree = true ∧
    (AFGRocket.Explode self r CollidedActor).1.bActorTickEnabled = false ∧
    (AFGRocket.Explode self r CollidedActor).1.bVisible = false := by
  refine ⟨?_, ?_, rfl, rfl, rfl⟩
  · cases CollidedActor with
    | none => cases hb : r.bHasExplosion <;> simp [AFGRocket.Explode, hb, hitReports]
    | some a =>
      cases a with
      | Other => cases hb : r.bHasExplosion <;> simp [AFGRocket.Explode, hb, hitReports]
      | Player id b =>
        cases b <;> cases hb : r.bHasExplosion <;> simp [AFGRocket.Explode, hb, hitReports]
  · cases CollidedActor with
    | none => cases hb : r.bHasExplosion <;> simp [AFGRocket.Explode, hb, hitReports]
    | some a =>
      cases a with
      | Other => cases hb : r.bHasExplosion <;> simp [AFGRocket.Explode, hb, hitReports]
      | Player id b =>
        cases b <;> cases hb : r.bHasExplosion <;> simp [AFGRocket.Explode, hb, hitReports]

theorem Flight_append (E : Engine) (self : Nat) (r : AFGRocket) (l1 l2 : List (ℚ × FHitResult)) :
    AFGRocket.Flight E self r (l1 ++ l2) =
      ((AFGRocket.Flight E self (AFGRocket.Flight E self r l1).1 l2).1,
        (AFGRocket.Flight E self r l1).2 ++
          (AFGRocket.Flight E self (AFGRocket.Flight E self r l1).1 l2).2) := by
  induction l1 generalizing r with
  | nil => simp [AFGRocket.Flight]
  | cons t ts ih => simp [AFGRocket.Flight, ih]

theorem Countdown_append (E : Engine) (start : ℚ) (l1 l2 : List ℚ) :
    Countdown E start (l1 ++ l2) = Countdown E (Countdown E start l1) l2 := by
  induction l1 generalizing start with
  | nil => rfl
  | cons d ds ih => exact ih (E.FSub start d)

theorem Countdown_exact (E : Engine) (start : ℚ) (dts : List ℚ)
    (h : ExactCountdown E start dts = true) : Countdown E start dts = start - dts.sum := by
  induction dts generalizing start with
  | nil => simp [Countdown]
  | cons d ds ih =>
    simp only [ExactCountdown, Bool.and_eq_true, decide_eq_true_eq] at h
    rw [Countdown, ih _ h.2, h.1, List.sum_cons]
    ring

theorem ExactCountdown_append (E : Engine) (start : ℚ) (l1 l2 : List ℚ)
    (h : ExactCountdown E start (l1 ++ l2) = true) : ExactCountdown E start l1 = true := by
  induction l1 generalizing start with
  | nil => rfl
  | cons d ds ih =>
    simp only [List.cons_append, ExactCountdown, Bool.and_eq_true, decide_eq_true_eq] at h ⊢
    exact ⟨h.1, ih _ h.2⟩

/-- While the remaining lifetime has not dropped below 0 after any tick and no
line trace reports a blocking hit, a ticking rocket keeps its flags and makes
no call. -/
theorem Flight_inflight (E : Engine) (self : Nat) (r : AFGRocket) (ticks : List (ℚ × FHitResult))
    (hen : r.bActorTickEnabled = true)
    (hnb : ∀ t ∈ ticks, t.2.bBlockingHit = false)
    (hpos : ∀ k, 1 ≤ k → k ≤ ticks.length →
      ¬ Countdown E r.LifeTimeElapsed ((ticks.take k).map Prod.fst) < 0) :
    (AFGRocket.Flight E self r ticks).2 = [] ∧
    (AFGRocket.Flight E self r ticks).1.bIsFree = r.bIsFree ∧
    (AFGRocket.Flight E self r ticks).1.bActorTickEnabled = true ∧
    (AFGRocket.Flight E self r ticks).1.bVisible = r.bVisible ∧
    (AFGRocket.Flight E self r ticks).1.bHasExplosion = r.bHasExplosion ∧
    (AFGRocket.Flight E self r ticks).1.LifeTime = r.LifeTime ∧
    (AFGRocket.Flight E self r ticks).1.MovementVelocity = r.MovementVelocity ∧
    (AFGRocket.Flight E self r ticks).1.LifeTimeElapsed =
      Countdown E r.LifeTimeElapsed (ticks.map Prod.fst) := by
  induction ticks generalizing r with
  | nil => simp [AFGRocket.Flight, hen, Countdown]
  | cons t ts ih =>
    have h1 : ¬ E.FSub r.LifeTimeElapsed t.1 < 0 := by
      have := hpos 1 (le_refl _) (by simp)
      simpa [Countdown] using this
    have hstep : r.EngineTick E self t.1 t.2 = (r.Advance E t.1, []) := by
      simp only [AFGRocket.EngineTick, hen, if_true]
      rw [Tick_noHit E self r t.1 t.2 (hnb t (List.mem_cons_self _ _)), if_neg h1]
    have hpos2 : ∀ k, 1 ≤ k → k ≤ ts.length →
        ¬ Countdown E (r.Advance E t.1).LifeTimeElapsed ((ts.take k).map Prod.fst) < 0 := by
      intro k hk1 hk2
      have := hpos (k + 1) (by omega) (by simp; omega)
      simpa only [List.take_succ_cons, List.map_cons, Countdown] using this
    obtain ⟨g1, g2, g3, g4, g5, g6, g7, g8⟩ := ih (r.Advance E t.1) hen
      (fun t2 ht2 => hnb t2 (List.mem_cons_of_mem _ ht2)) hpos2
    simp only [AFGRocket.Flight, hstep, List.nil_append, List.map_cons, Countdown]
    exact ⟨g1, g2, g3, g4, g5, g6, g7, g8⟩

theorem Flight_disabled (E : Engine) (self : Nat) (r : AFGRocket) (ticks : List (ℚ × FHitResult))
    (h : r.bActorTickEnabled = false) : AFGRocket.Flight E self r ticks = (r, []) := by
  induction ticks with
  | nil => rfl
  | cons t ts ih =>
    have hstep : r.EngineTick E self t.1 t.2 = (r, []) := by
      simp [AFGRocket.EngineTick, h]
    simp only [AFGRocket.Flight, hstep, ih, List.nil_append]

/-- The tick on which the remaining lifetime of a ticking rocket drops below 0,
without a blocking hit. -/
theorem Flight_timeout (E : Engine) (self : Nat) (r : AFGRocket) (last : ℚ × FHitResult)
    (hen : r.bActorTickEnabled = true) (hnb : last.2.bBlockingHit = false)
    (hneg : E.FSub r.LifeTimeElapsed last.1 < 0) :
    AFGRocket.Flight E self r [last] =
      ((r.Advance E last.1).MakeFree, Call.Explode self none ::
        (if r.bHasExplosion then [Call.SpawnEmitterAtLocation self] else [])) := by
  have hstep : r.EngineTick E self last.1 last.2 =
      ((r.Advance E last.1).MakeFree, Call.Explode self none ::
        (if r.bHasExplosion then [Call.SpawnEmitterAtLocation self] else [])) := by
    simp only [AFGRocket.EngineTick, hen, if_true]
    rw [Tick_noHit E self r last.1 last.2 hnb, if_pos hneg]
  simp only [AFGRocket.Flight, hstep, List.append_nil]

/-- C7: a rocket started by `StartMoving` with configured lifetime `L` has its
remaining lifetime `LifeTimeElapsed` set to `L`, and every tick subtracts its
`DeltaTime` from it in float arithmetic (`Countdown`).  Ticked by any sequence
of ticks whose line traces report no blocking hit, the rocket stays InFlight
(ticking, visible, no call made) as long as the remaining lifetime has not
dropped below 0 after a tick; on the first tick after which it is below 0
`Explode` is called once, with no actor, the rocket becomes Free with ticking
disabled and hidden, no hit report is sent, and further ticks leave it alone.
Where the subtractions are exact, the remaining lifetime is `L` minus the time
ticked, so that with `L = 5` the rocket is still InFlight when exactly 5
seconds have been ticked and is freed by the first tick that takes the total
above 5 seconds. -/
theorem C7_timeout_frees_rocket (E : Engine) (self : Nat) (r0 : AFGRocket)
    (Forward Loc : FVector) (ticks : List (ℚ × FHitResult)) (last : ℚ × FHitResult)
    (hnb : ∀ t ∈ ticks ++ [last], t.2.bBlockingHit = false)
    (hpos : ∀ k, 1 ≤ k → k ≤ ticks.length →
      ¬ Countdown E r0.LifeTime ((ticks.take k).map Prod.fst) < 0) :
    (r0.StartMoving E Forward Loc).LifeTimeElapsed = r0.LifeTime ∧
    ((AFGRocket.Flight E self (r0.StartMoving E Forward Loc) ticks).1.IsFree = false ∧
      (AFGRocket.Flight E self (r0.StartMoving E Forward Loc) ticks).1.bActorTickEnabled = true ∧
      (AFGRocket.Flight E self (r0.StartMoving E Forward Loc) ticks).1.bVisible = true ∧
      (AFGRocket.Flight E self (r0.StartMoving E Forward Loc) ticks).1.LifeTimeElapsed =
        Countdown E r0.LifeTime (ticks.map Prod.fst) ∧
      (AFGRocket.Flight E self (r0.StartMoving E Forward Loc) ticks).2 = []) ∧
    (Countdown E r0.LifeTime ((ticks ++ [last]).map Prod.fst) < 0 →
      (AFGRocket.Flight E self (r0.StartMoving E Forward Loc) (ticks ++ [last])).1.IsFree = true ∧
      (AFGRocket.Flight E self (r0.StartMoving E Forward Loc)
        (ticks ++ [last])).1.bActorTickEnabled = false ∧
      (AFGRocket.Flight E self (r0.StartMoving E Forward Loc) (ticks ++ [last])).1.bVisible = false ∧
      explodeCalls (AFGRocket.Flight E self (r0.StartMoving E Forward Loc) (ticks ++ [last])).2
        = [none] ∧
      hitReports (AFGRocket.Flight E self (r0.StartMoving E Forward Loc) (ticks ++ [last])).2
        = [] ∧
      ∀ more, AFGRocket.Flight E self
          (AFGRocket.Flight E self (r0.StartMoving E Forward Loc) (ticks ++ [last])).1 more =
        ((AFGRocket.Flight E self (r0.StartMoving E Forward Loc) (ticks ++ [last])).1, [])) ∧
    (ExactCountdown E r0.LifeTime ((ticks ++ [last]).map Prod.fst) = true →
      Countdown E r0.LifeTime (ticks.map Prod.fst) = r0.LifeTime - (ticks.map Prod.fst).sum ∧
      (Countdown E r0.LifeTime ((ticks ++ [last]).map Prod.fst) < 0 ↔
        r0.LifeTime < (ticks.map Prod.fst).sum + last.1)) := by
  obtain ⟨g1, g2, g3, g4, g5, -, -, g8⟩ :=
    Flight_inflight E self (r0.StartMoving E Forward Loc) ticks rfl
      (fun t ht => hnb t (List.mem_append_left _ ht)) hpos
  refine ⟨rfl, ⟨g2, g3, g4, g8, g1⟩, ?_, ?_⟩
  · intro hneg
    have hneg2 : E.FSub
        (AFGRocket.Flight E self (r0.StartMoving E Forward Loc) ticks).1.LifeTimeElapsed
        last.1 < 0 := by
      rw [g8]
      simpa only [List.map_append, List.map_cons, List.map_nil, Countdown_append, Countdown]
        using hneg
    have hlast := Flight_timeout E self _ last g3 (hnb last (by simp)) hneg2
    rw [Flight_append, hlast, g1]
    refine ⟨rfl, rfl, rfl, ?_, ?_, fun more => Flight_disabled E self _ more rfl⟩
    · rw [g5]
      by_cases hb : (AFGRocket.StartMoving E r0 Forward Loc).bHasExplosion = true <;>
        simp [hb, explodeCalls]
    · rw [g5]
      by_cases hb : (AFGRocket.StartMoving E r0 Forward Loc).bHasExplosion = true <;>
        simp [hb, hitReports]
  · intro hex
    have hex1 : ExactCountdown E r0.LifeTime (ticks.map Prod.fst) = true := by
      rw [List.map_append] at hex
      exact ExactCountdown_append E _ _ _ hex
    refine ⟨Countdown_exact E _ _ hex1, ?_⟩
    rw [Countdown_exact E _ _ hex]
    simp only [List.map_append, List.map_cons, List.map_nil, List.sum_append, List.sum_cons,
      List.sum_nil, add_zero]
    constructor <;> intro h <;> linarith

theorem ticks5_noHit : ∀ t ∈ ticks5 ++ [((1 : ℚ), noHit)], t.2.bBlockingHit = false := by
  intro t ht
  simp only [ticks5, List.cons_append, List.nil_append, List.mem_cons, List.mem_singleton,
    List.not_mem_nil, or_false] at ht
  rcases ht with rfl | rfl | rfl <;> rfl

theorem ticks5_pos : ∀ k, 1 ≤ k → k ≤ ticks5.length →
    ¬ Countdown engine0 rocket0.LifeTime ((ticks5.take k).map Prod.fst) < 0 := by
  intro k h1 h2
  have h3 : k ≤ 2 := h2
  interval_cases k <;> norm_num [ticks5, rocket0, Countdown, engine0]

theorem ticks5_neg :
    Countdown engine0 rocket0.LifeTime ((ticks5 ++ [((1 : ℚ), noHit)]).map Prod.fst) < 0 := by
  norm_num [ticks5, rocket0, Countdown, engine0]

theorem ticks5_exact :
    ExactCountdown engine0 rocket0.LifeTime
      ((ticks5 ++ [((1 : ℚ), noHit)]).map Prod.fst) = true := by
  simp [ticks5, ExactCountdown, engine0]

/-- C7 (witness): the rocket with lifetime 5 is still InFlight after ticks of
2 s and 3 s, with remaining lifetime 0, and is freed by the next tick, of 1 s.
Every subtraction of this countdown is exact, in single precision too. -/
theorem C7_timeout_frees_rocket_witness :
    rocket0.LifeTime = 5 ∧
    (AFGRocket.Flight engine0 0 (rocket0.StartMoving engine0 ⟨1, 0, 0⟩ ⟨0, 0, 0⟩)
      ticks5).1.IsFree = false ∧
    (AFGRocket.Flight engine0 0 (rocket0.StartMoving engine0 ⟨1, 0, 0⟩ ⟨0, 0, 0⟩)
      ticks5).1.LifeTimeElapsed = Countdown engine0 rocket0.LifeTime (ticks5.map Prod.fst) ∧
    Countdown engine0 rocket0.LifeTime (ticks5.map Prod.fst) =
      rocket0.LifeTime - (ticks5.map Prod.fst).sum ∧
    Countdown engine0 rocket0.LifeTime ((ticks5 ++ [((1 : ℚ), noHit)]).map Prod.fst) < 0 ∧
    (AFGRocket.Flight engine0 0 (rocket0.StartMoving engine0 ⟨1, 0, 0⟩ ⟨0, 0, 0⟩)
      (ticks5 ++ [(1, noHit)])).1.IsFree = true ∧
    explodeCalls (AFGRocket.Flight engine0 0 (rocket0.StartMoving engine0 ⟨1, 0, 0⟩ ⟨0, 0, 0⟩)
      (ticks5 ++ [(1, noHit)])).2 = [none] ∧
    hitReports (AFGRocket.Flight engine0 0 (rocket0.StartMoving engine0 ⟨1, 0, 0⟩ ⟨0, 0, 0⟩)
      (ticks5 ++ [(1, noHit)])).2 = [] := by
  have h := C7_timeout_frees_rocket engine0 0 rocket0 ⟨1, 0, 0⟩ ⟨0, 0, 0⟩ ticks5 (1, noHit)
    ticks5_noHit ticks5_pos
  exact ⟨rfl, h.2.1.1, h.2.1.2.2.2.1, (h.2.2.2 ticks5_exact).1, ticks5_neg,
    (h.2.2.1 ticks5_neg).1, (h.2.2.1 ticks5_neg).2.2.2.1, (h.2.2.1 ticks5_neg).2.2.2.2.1⟩

theorem poolShape_set (l : List (Option AFGRocket)) (i : Nat) (r r2 : AFGRocket)
    (h : l[i]? = some (some r)) (hf : r2.IsFree = r.IsFree) :
    poolShape (l.set i (some r2)) = poolShape l := by
  induction l generalizing i with
  | nil => rfl
  | cons x xs ih =>
    cases i with
    | zero =>
      simp at h
      subst h
      simp [poolShape, hf]
    | succ j =>
      simp at h
      have := ih j h
      simp only [poolShape, List.set_cons_succ, List.map_cons] at this ⊢
      rw [this]

theorem foldl_countStep_shape (l1 l2 : List (Option AFGRocket)) (acc : Option Nat)
    (h : poolShape l1 = poolShape l2) :
    l1.foldl AFGPlayer.countStep acc = l2.foldl AFGPlayer.countStep acc := by
  induction l1 generalizing l2 acc with
  | nil =>
    cases l2 with
    | nil => rfl
    | cons y ys => simp [poolShape] at h
  | cons x xs ih =>
    cases l2 with
    | nil => simp [poolShape] at h
    | cons y ys =>
      simp only [poolShape, List.map_cons, List.cons.injEq] at h
      have hstep : AFGPlayer.countStep acc x = AFGPlayer.countStep acc y := by
        cases x <;> cases y <;> cases acc <;> simp_all [AFGPlayer.countStep]
      simp only [List.foldl_cons, hstep]
      exact ih ys _ h.2

theorem GetFreeRocketFrom_shape (l1 l2 : List (Option AFGRocket)) (k : Nat)
    (h : poolShape l1 = poolShape l2) :
    AFGPlayer.GetFreeRocketFrom l1 k = AFGPlayer.GetFreeRocketFrom l2 k := by
  induction l1 generalizing l2 k with
  | nil =>
    cases l2 with
    | nil => rfl
    | cons y ys => simp [poolShape] at h
  | cons x xs ih =>
    cases l2 with
    | nil => simp [poolShape] at h
    | cons y ys =>
      simp only [poolShape, List.map_cons, List.cons.injEq] at h
      have ht := ih ys (k + 1) h.2
      cases x <;> cases y <;> simp_all [AFGPlayer.GetFreeRocketFrom]

theorem set_same (l : List (Option AFGRocket)) (i : Nat) (x : Option AFGRocket)
    (h : l[i]? = some x) : l.set i x = l := by
  induction l generalizing i with
  | nil => rfl
  | cons y ys ih =>
    cases i with
    | zero =>
      simp at h
      simp [h]
    | succ j =>
      simp at h
      simp [ih j h]

theorem store_self (p : AFGPlayer) (i : Nat) (r : AFGRocket)
    (h : p.RocketInstances[i]? = some (some r)) : p.store i r = p := by
  cases p
  simp only [AFGPlayer.store] at h ⊢
  simp [set_same _ i _ h]

theorem store_store (p : AFGPlayer) (i : Nat) (r1 r2 : AFGRocket) :
    (p.store i r1).store i r2 = p.store i r2 := by
  simp [AFGPlayer.store]

theorem store_slot (p : AFGPlayer) (i : Nat) (r r2 : AFGRocket)
    (h : p.RocketInstances[i]? = some (some r)) :
    (p.store i r2).RocketInstances[i]? = some (some r2) := by
  have hi : i < p.RocketInstances.length := by
    by_contra hlt
    rw [List.getElem?_eq_none (not_lt.mp hlt)] at h
    cases h
  simp [AFGPlayer.store, hi]

/-- Ticking the rocket of one slot is the flight of that rocket; nothing else
of the vehicle changes. -/
theorem run_rocketTicks (E : Engine) (p : AFGPlayer) (i : Nat) (r : AFGRocket)
    (ticks : List (ℚ × FHitResult)) (h : p.RocketInstances[i]? = some (some r)) :
    run E p (rocketTicks i ticks) =
      some (p.store i (AFGRocket.Flight E i r ticks).1, (AFGRocket.Flight E i r ticks).2) := by
  induction ticks generalizing p r with
  | nil => simp [rocketTicks, run, AFGRocket.Flight, store_self p i r h]
  | cons t ts ih =>
    have hd : p.deref (some i) = some r := (deref_some_iff p i r).2 h
    have hstep : step E p (Event.RocketTick i t.1 t.2) =
        some (p.store i (r.EngineTick E i t.1 t.2).1, (r.EngineTick E i t.1 t.2).2) := by
      simp [step, AFGPlayer.RocketTick, hd]
    have h2 := ih (p.store i (r.EngineTick E i t.1 t.2).1) (r.EngineTick E i t.1 t.2).1
      (store_slot p i r _ h)
    simp only [rocketTicks] at h2
    simp only [rocketTicks, List.map_cons, run, hstep, h2, store_store, AFGRocket.Flight]

theorem StartMoving_congr (E : Engine) (a b : AFGRocket) (F L : FVector)
    (h1 : a.LifeTime = b.LifeTime) (h2 : a.MovementVelocity = b.MovementVelocity)
    (h3 : a.bHasExplosion = b.bHasExplosion) : a.StartMoving E F L = b.StartMoving E F L := by
  simp only [AFGRocket.StartMoving, AFGRocket.SetRocketVisibility, h1, h2, h3]

/-- C8: for every Free projectile of a pool (slot `i`), `StartMoving` followed
by ticks without collision, the last of which is the first to take the
remaining lifetime (the configured lifetime with the `DeltaTime` of each tick
subtracted in float arithmetic, `Countdown`) below 0, returns the projectile to Free, which is the state it had before firing
(with ticking disabled and hidden), changes nothing else of the vehicle, and
leaves the pool as the pool queries see it exactly as before firing:
`GetNumActiveRockets` and `GetFreeRocket` return what they returned before and
a free projectile is found; the configured lifetime, speed and effect are
unchanged, so that starting the projectile again gives exactly the state that
starting it would have given before. -/
theorem C8_timeout_round_trip (E : Engine) (p : AFGPlayer) (i : Nat) (r : AFGRocket)
    (Forward Loc : FVector) (ticks : List (ℚ × FHitResult)) (last : ℚ × FHitResult)
    (hslot : p.RocketInstances[i]? = some (some r)) (hfree : r.IsFree = true)
    (hnb : ∀ t ∈ ticks ++ [last], t.2.bBlockingHit = false)
    (hpos : ∀ k, 1 ≤ k → k ≤ ticks.length →
      ¬ Countdown E r.LifeTime ((ticks.take k).map Prod.fst) < 0)
    (hneg : Countdown E r.LifeTime ((ticks ++ [last]).map Prod.fst) < 0) :
    ∃ r2 calls,
      run E (p.store i (r.StartMoving E Forward Loc)) (rocketTicks i (ticks ++ [last]))
        = some (p.store i r2, calls) ∧
      (r.StartMoving E Forward Loc).IsFree = false ∧
      r2.IsFree = r.IsFree ∧ r2.bActorTickEnabled = false ∧ r2.bVisible = false ∧
      r2.LifeTime = r.LifeTime ∧ r2.MovementVelocity = r.MovementVelocity ∧
      r2.bHasExplosion = r.bHasExplosion ∧
      poolShape (p.store i r2).RocketInstances = poolShape p.RocketInstances ∧
      (p.store i r2).GetNumActiveRockets = p.GetNumActiveRockets ∧
      (p.store i r2).GetFreeRocket = p.GetFreeRocket ∧
      (∃ j, (p.store i r2).GetFreeRocket = some j) ∧
      ∀ F L, r2.StartMoving E F L = r.StartMoving E F L := by
  have hslot1 : (p.store i (r.StartMoving E Forward Loc)).RocketInstances[i]? =
      some (some (r.StartMoving E Forward Loc)) := store_slot p i r _ hslot
  have hrun := run_rocketTicks E (p.store i (r.StartMoving E Forward Loc)) i
    (r.StartMoving E Forward Loc) (ticks ++ [last]) hslot1
  rw [store_store] at hrun
  obtain ⟨g1, -, g3, -, g5, g6, g7, g8⟩ :=
    Flight_inflight E i (r.StartMoving E Forward Loc) ticks rfl
      (fun t ht => hnb t (List.mem_append_left _ ht)) hpos
  have hneg2 : E.FSub
      (AFGRocket.Flight E i (r.StartMoving E Forward Loc) ticks).1.LifeTimeElapsed
      last.1 < 0 := by
    rw [g8]
    simpa only [List.map_append, List.map_cons, List.map_nil, Countdown_append, Countdown]
      using hneg
  have hlast := Flight_timeout E i _ last g3 (hnb last (by simp)) hneg2
  have hfl : (AFGRocket.Flight E i (r.StartMoving E Forward Loc) (ticks ++ [last])).1 =
      (AFGRocket.Advance E (AFGRocket.Flight E i (r.StartMoving E Forward Loc) ticks).1
        last.1).MakeFree := by
    rw [Flight_append, hlast]
  rw [hfl] at hrun
  have hshape : poolShape (p.store i (AFGRocket.Advance E
      (AFGRocket.Flight E i (r.StartMoving E Forward Loc) ticks).1 last.1).MakeFree).RocketInstances
      = poolShape p.RocketInstances :=
    poolShape_set _ i r _ hslot (by rw [hfree]; rfl)
  have hget : (p.store i (AFGRocket.Advance E
      (AFGRocket.Flight E i (r.StartMoving E Forward Loc) ticks).1 last.1).MakeFree).GetFreeRocket
      = p.GetFreeRocket := GetFreeRocketFrom_shape _ _ 0 hshape
  have hmem : some r ∈ p.RocketInstances := List.getElem?_mem hslot
  obtain ⟨j, hj⟩ := GetFreeRocketFrom_isSome p.RocketInstances 0 ⟨r, hmem, hfree⟩
  have c1 : (AFGRocket.Advance E (AFGRocket.Flight E i (r.StartMoving E Forward Loc) ticks).1
      last.1).MakeFree.LifeTime = r.LifeTime := g6
  have c2 : (AFGRocket.Advance E (AFGRocket.Flight E i (r.StartMoving E Forward Loc) ticks).1
      last.1).MakeFree.MovementVelocity = r.MovementVelocity := g7
  have c3 : (AFGRocket.Advance E (AFGRocket.Flight E i (r.StartMoving E Forward Loc) ticks).1
      last.1).MakeFree.bHasExplosion = r.bHasExplosion := g5
  refine ⟨_, _, hrun, rfl, by rw [hfree]; rfl, rfl, rfl, c1, c2, c3, hshape,
    foldl_countStep_shape _ _ _ hshape, hget, ⟨j, by rw [hget]; exact hj⟩, ?_⟩
  intro F L
  exact StartMoving_congr E _ r F L c1 c2 c3

/-- C8 (witness): rocket 0 of the default pool, started and ticked for 2 s,
3 s and 1 s against its lifetime of 5 s. -/
theorem C8_timeout_round_trip_witness :
    ∃ r2 calls,
      run engine0 (server0.store 0 (rocket0.StartMoving engine0 ⟨1, 0, 0⟩ ⟨0, 0, 0⟩))
        (rocketTicks 0 (ticks5 ++ [(1, noHit)])) = some (server0.store 0 r2, calls) ∧
      r2.IsFree = true ∧
      (server0.store 0 r2).GetNumActiveRockets = server0.GetNumActiveRockets ∧
      (server0.store 0 r2).GetFreeRocket = server0.GetFreeRocket := by
  obtain ⟨r2, calls, h1, -, h3, -, -, -, -, -, -, h10, h11, -, -⟩ :=
    C8_timeout_round_trip engine0 server0 0 rocket0 ⟨1, 0, 0⟩ ⟨0, 0, 0⟩ ticks5 (1, noHit) rfl rfl
      ticks5_noHit ticks5_pos ticks5_neg
  exact ⟨r2, calls, h1, h3, h10, h11⟩

theorem FireRocket_noop (E : Engine) (p : AFGPlayer)
    (hfail : p.FireCooldownElapsed > 0 ∨ (p.NumRockets ≤ 0 ∧ p.bUnlimitedRockets = false) ∨
      ∃ n, p.GetNumActiveRockets = some n ∧ n ≥ MaxActiveRockets) :
    p.FireRocket E = some (p, []) := by
  unfold AFGPlayer.FireRocket
  by_cases h1 : p.FireCooldownElapsed > 0
  · rw [if_pos h1]
  rw [if_neg h1]
  by_cases h2 : p.NumRockets ≤ 0 ∧ p.bUnlimitedRockets = false
  · rw [if_pos h2]
  rw [if_neg h2]
  rcases hfail with h | h | ⟨n, hn, hge⟩
  · exact absurd h h1
  · exact absurd h h2
  · rw [hn]
    simp only [if_pos hge]

theorem FireRocket_ready_cooldown (E : Engine) (p : AFGPlayer) (i : Nat) (r : AFGRocket)
    (S : UFGPlayerSettings) (q : AFGPlayer × List Call) (hr : FireReady p i r S)
    (h : p.FireRocket E = some q) : q.1.FireCooldownElapsed = S.FireCooldown := by
  rw [FireRocket_ready E p i r S hr] at h
  by_cases ha : p.LocalRole = ENetRole.ROLE_Authority
  · rw [if_pos ha] at h
    have hslot : (AFGPlayer.RocketInstances
        { p with FireCooldownElapsed := S.FireCooldown })[i]? = some (some r) := hr.slot
    by_cases hc : (AFGPlayer.ServerNumRockets { p with FireCooldownElapsed := S.FireCooldown }) - 1 < 0
        ∧ (AFGPlayer.bUnlimitedRockets { p with FireCooldownElapsed := S.FireCooldown }) = false
    · rw [Server_FireRocket_Implementation_reject E _ _ _ _ hc,
        Client_RemoveRocket_eq _ i r hslot] at h
      simp only [Option.map_some', Option.some.injEq] at h
      subst h
      show (if _ then _ else _ : AFGPlayer).FireCooldownElapsed = _
      split <;> rfl
    · rw [Server_FireRocket_Implementation_accept E _ i r _ _ hslot hc] at h
      simp only [Option.map_some', Option.some.injEq] at h
      subst h
      show (if _ then _ else _ : AFGPlayer).FireCooldownElapsed = _
      split <;> rfl
  · rw [if_neg ha] at h
    by_cases hb : p.LocalRole = ENetRole.ROLE_AutonomousProxy
    · rw [if_pos hb] at h
      simp only [Option.some.injEq] at h
      subst h
      rfl
    · rw [if_neg hb] at h
      simp only [Option.some.injEq] at h
      subst h
      rfl

theorem step_cooldown (E : Engine) (p : AFGPlayer) (e : Event) (q : AFGPlayer × List Call)
    (hne : e.isFire = false) (h : step E p e = some q) :
    q.1.FireCooldownElapsed = Countdown E p.FireCooldownElapsed (tickTimes [e]) := by
  cases e with
  | FireRocket => simp [Event.isFire] at hne
  | Tick dt =>
    simp only [step, Option.some.injEq] at h
    subst h
    rw [(Tick_frame E p dt).2.2.2.2.2]
    rfl
  | RocketTick i dt Hit =>
    simp only [step, Option.some.injEq] at h
    subst h
    unfold AFGPlayer.RocketTick
    cases hd : p.deref (some i) <;> simp [tickTimes, Countdown, AFGPlayer.store]
  | Multicast_FireRocket NewRocket Loc Rot =>
    simp only [step] at h
    cases NewRocket with
    | none =>
      simp only [AFGPlayer.Multicast_FireRocket_Implementation, Option.some.injEq] at h
      subst h
      simp [tickTimes, Countdown]
    | some i =>
      cases hd : p.deref (some i) with
      | none => simp [AFGPlayer.Multicast_FireRocket_Implementation, hd] at h
      | some r =>
        have hs := (deref_some_iff p i r).1 hd
        rw [Multicast_FireRocket_Implementation_eq E p i r Loc Rot hs] at h
        simp only [Option.some.injEq] at h
        subst h
        split <;> simp [tickTimes, Countdown, AFGPlayer.store]
  | Client_RemoveRocket Rocket =>
    simp only [step] at h
    cases Rocket with
    | none => simp [AFGPlayer.Client_RemoveRocket_Implementation] at h
    | some i =>
      cases hd : p.deref (some i) with
      | none => simp [AFGPlayer.Client_RemoveRocket_Implementation, hd] at h
      | some r =>
        have hs := (deref_some_iff p i r).1 hd
        rw [Client_RemoveRocket_Implementation_eq p i r hs] at h
        simp only [Option.some.injEq] at h
        subst h
        simp [tickTimes, Countdown, AFGPlayer.store]
  | PredictPickedUp P =>
    simp only [step, Option.some.injEq] at h
    subst h
    unfold AFGPlayer.PredictPickedUp
    cases P.PickupType <;> simp [tickTimes, Countdown]

theorem tickTimes_cons (e : Event) (es : List Event) :
    tickTimes (e :: es) = tickTimes [e] ++ tickTimes es := by
  cases e <;> simp [tickTimes]

theorem run_cooldown (E : Engine) (p : AFGPlayer) (evs : List Event) (q : AFGPlayer × List Call)
    (hne : ∀ e ∈ evs, e.isFire = false) (h : run E p evs = some q) :
    q.1.FireCooldownElapsed = Countdown E p.FireCooldownElapsed (tickTimes evs) := by
  induction evs generalizing p q with
  | nil =>
    simp only [run, Option.some.injEq] at h
    subst h
    simp [tickTimes, Countdown]
  | cons e es ih =>
    obtain ⟨q1, q2, h1, h2, rfl⟩ := run_cons_some E p e es q h
    have e1 := step_cooldown E p e q1 (hne e (List.mem_cons_self _ _)) h1
    have e2 := ih q1.1 q2 (fun e2 he2 => hne e2 (List.mem_cons_of_mem _ he2)) h2
    rw [tickTimes_cons, Countdown_append]
    show q2.1.FireCooldownElapsed = _
    rw [e2, e1]

theorem client1_fires :
    client1.FireRocket engine0 = some (client2,
      [Call.Server_FireRocket (some 0) (client1.GetRocketStartLocation engine0) client1.ActorRotation,
        Call.BP_OnNumRocketsChanged 0]) := by
  have hready : FireReady client1 0 rocket0 settings0 :=
    { cooldown := by simp [client1, player0]
      ammo := by simp [client1, player0]
      nonull := (numActive_of_all_free client1.RocketInstances (player0_all_free _ _ _)).1
      active := by
        have h0 : numActive client1.RocketInstances = 0 :=
          (numActive_of_all_free client1.RocketInstances (player0_all_free _ _ _)).2
        rw [h0]
        decide
      free := rfl
      slot := rfl
      isFree := rfl
      settings := rfl }
  rw [FireRocket_ready engine0 client1 0 rocket0 settings0 hready]
  rfl

/-- C9: `FireRocket` called while a client-side precondition fails (cooldown
remaining above 0, or predicted ammunition at most 0 with unlimited ammunition
off, or at least `MaxActiveRockets` rockets counted in flight) returns the
state unchanged, so no projectile changes state and predicted ammunition and
cooldown are as before, and makes no call, so no fire request is sent.  In
particular, after a `FireRocket` that sent a fire request the cooldown
remaining is the configured `FireCooldown`, after any events other than the
fire input it is `FireCooldown` with the `DeltaTime` of each of the vehicle's
ticks subtracted in float arithmetic (`Countdown`), and as long as that is
above 0 a second `FireRocket` is such a no-op; where those subtractions are
exact this is as long as the vehicle's ticks add up to less than
`FireCooldown`. -/
theorem C9_dropped_fire_request_is_noop (E : Engine) (p : AFGPlayer) :
    ((p.FireCooldownElapsed > 0 ∨ (p.NumRockets ≤ 0 ∧ p.bUnlimitedRockets = false) ∨
        ∃ n, p.GetNumActiveRockets = some n ∧ n ≥ MaxActiveRockets) →
      p.FireRocket E = some (p, [])) ∧
    (∀ (p0 q : AFGPlayer) (calls calls2 : List Call) (S : UFGPlayerSettings) (evs : List Event),
      p0.PlayerSettings = some S →
      p0.FireRocket E = some (q, calls) → fireRequests calls ≠ [] →
      run E q evs = some (p, calls2) → (∀ e ∈ evs, e.isFire = false) →
      q.FireCooldownElapsed = S.FireCooldown ∧
      p.FireCooldownElapsed = Countdown E S.FireCooldown (tickTimes evs) ∧
      (Countdown E S.FireCooldown (tickTimes evs) > 0 → p.FireRocket E = some (p, [])) ∧
      (ExactCountdown E S.FireCooldown (tickTimes evs) = true →
        (tickTimes evs).sum < S.FireCooldown → p.FireRocket E = some (p, []))) := by
  refine ⟨FireRocket_noop E p, ?_⟩
  intro p0 q calls calls2 S evs hS h0 hreq hrun hne
  have hcool : q.FireCooldownElapsed = S.FireCooldown := by
    rcases FireRocket_cases E p0 (q, calls) h0 with hq | ⟨i, r, S2, hr⟩
    · simp only [Prod.mk.injEq] at hq
      rw [hq.2] at hreq
      exact absurd rfl hreq
    · have hS2 : S2 = S := by
        have := hr.settings
        rw [hS] at this
        exact (Option.some.inj this).symm
      subst hS2
      exact FireRocket_ready_cooldown E p0 i r S2 (q, calls) hr h0
  have hp : p.FireCooldownElapsed = Countdown E S.FireCooldown (tickTimes evs) := by
    rw [← hcool]
    exact run_cooldown E q evs (p, calls2) hne hrun
  refine ⟨hcool, hp, ?_, ?_⟩
  · intro hpos
    exact FireRocket_noop E p (Or.inl (by rw [hp]; exact hpos))
  · intro hex htime
    refine FireRocket_noop E p (Or.inl ?_)
    rw [hp, Countdown_exact E _ _ hex]
    show 0 < _
    linarith

/-- C9 (witness): scenario A.  The client with predicted ammunition 1 fires
(`client2` is the state left, with the cooldown of 1 s running); a second
request at once is dropped, and so is one made after a tick of half a second,
when the cooldown remaining is half a second. -/
theorem C9_dropped_fire_request_is_noop_witness :
    client2.FireCooldownElapsed > 0 ∧
    client2.FireRocket engine0 = some (client2, []) ∧
    Countdown engine0 settings0.FireCooldown (tickTimes [Event.Tick (1 / 2)]) > 0 ∧
    (client2.Tick engine0 (1 / 2)).1.FireRocket engine0 =
      some ((client2.Tick engine0 (1 / 2)).1, []) :=
  ⟨by norm_num [client2, AFGPlayer.store],
    (C9_dropped_fire_request_is_noop engine0 client2).1
      (Or.inl (by norm_num [client2, AFGPlayer.store])),
    by norm_num [tickTimes, Countdown, engine0, settings0],
    ((C9_dropped_fire_request_is_noop engine0 (client2.Tick engine0 (1 / 2)).1).2
      client1 client2 _ _ settings0 [Event.Tick (1 / 2)] rfl client1_fires
      (by simp [fireRequests]) rfl
      (by intro e he; simp at he; subst he; rfl)).2.2.1
      (by norm_num [tickTimes, Countdown, engine0, settings0])⟩

/-- The yaw after one tick of a locally controlled vehicle whose settings exist. -/
theorem Tick_Yaw (E : Engine) (p : AFGPlayer) (S : UFGPlayerSettings) (dt : ℚ)
    (hS : p.PlayerSettings = some S) (hl : p.IsLocallyControlled = true) :
    (p.Tick E dt).1.Yaw =
      E.FAdd p.Yaw (E.FMul (E.FMul (TurnDirectionAt p.Turn p.MovementVelocity)
        (TurnSpeedAt E S p.MovementVelocity)) dt) := by
  have hl2 : p.bLocallyControlled = true := hl
  unfold AFGPlayer.Tick
  by_cases ha : p.LocalRole = ENetRole.ROLE_Authority <;>
    simp [hS, hl2, ha, AFGPlayer.IsLocallyControlled, AFGPlayer.Server_SendLocation,
      AFGPlayer.Server_SendYaw, AFGPlayer.HasAuthority, TurnSpeedAt, TurnDirectionAt]

theorem TurnSpeedAt_reversing1 : TurnSpeedAt engine0 settings0 (-750) = 90 := by
  norm_num [TurnSpeedAt, ClampAbsDiv, Clamp, InterpEaseOut, settings0, engine0, abs_of_nonneg]

theorem TurnSpeedAt_forward1 : TurnSpeedAt engine0 settings0 750 = 90 := by
  norm_num [TurnSpeedAt, ClampAbsDiv, Clamp, InterpEaseOut, settings0, engine0, abs_of_nonneg]

theorem TurnSpeedAt_spinning1 : TurnSpeedAt engineRounding settings0 750 = 90 := by
  norm_num [TurnSpeedAt, ClampAbsDiv, Clamp, InterpEaseOut, settings0, engineRounding, engine0,
    abs_of_nonneg]

/-- C11 (counterexample): two ticks of 1 s of a locally controlled vehicle
with turn input 1 in which the claim's amount
`turnInput × turnSpeed(speed) × Δt` is 90.  Reversing at speed -750, `Yaw`
changes by -90.  Driving forwards at speed 750 with `Yaw` at 2^31, where the
single-precision sum of `Yaw` and 90 is `Yaw` again, `Yaw` does not change. -/
theorem C11_counterexample_reversing_turns_the_other_way :
    (reversing1.IsLocallyControlled = true ∧ reversing1.MovementVelocity < 0 ∧
      reversing1.Turn * TurnSpeedAt engine0 settings0 reversing1.MovementVelocity * 1 = 90 ∧
      (reversing1.Tick engine0 1).1.Yaw - reversing1.Yaw = -90 ∧
      (reversing1.Tick engine0 1).1.Yaw - reversing1.Yaw ≠
        reversing1.Turn * TurnSpeedAt engine0 settings0 reversing1.MovementVelocity * 1) ∧
    (spinning1.IsLocallyControlled = true ∧ 0 < spinning1.MovementVelocity ∧
      spinning1.Turn * TurnSpeedAt engineRounding settings0 spinning1.MovementVelocity * 1
        = 90 ∧
      (spinning1.Tick engineRounding 1).1.Yaw - spinning1.Yaw = 0 ∧
      (spinning1.Tick engineRounding 1).1.Yaw - spinning1.Yaw ≠
        spinning1.Turn * TurnSpeedAt engineRounding settings0 spinning1.MovementVelocity * 1) := by
  constructor
  · have hv : reversing1.MovementVelocity = -750 := rfl
    have ht : reversing1.Turn = 1 := rfl
    have hy : reversing1.Yaw = 0 := rfl
    have h := Tick_Yaw engine0 reversing1 settings0 1 rfl rfl
    rw [hv, ht, hy, TurnSpeedAt_reversing1] at h
    have h2 : (reversing1.Tick engine0 1).1.Yaw = -90 := by
      rw [h]
      norm_num [TurnDirectionAt, engine0]
    rw [hv, ht, hy, TurnSpeedAt_reversing1, h2]
    refine ⟨rfl, by norm_num, by norm_num, by norm_num, by norm_num⟩
  · have hv : spinning1.MovementVelocity = 750 := rfl
    have ht : spinning1.Turn = 1 := rfl
    have hy : spinning1.Yaw = 2147483648 := rfl
    have h := Tick_Yaw engineRounding spinning1 settings0 1 rfl rfl
    rw [hv, ht, hy, TurnSpeedAt_spinning1] at h
    have h2 : (spinning1.Tick engineRounding 1).1.Yaw = 2147483648 := by
      rw [h]
      norm_num [TurnDirectionAt, engineRounding, engine0]
    rw [hv, ht, hy, TurnSpeedAt_spinning1, h2]
    refine ⟨rfl, by norm_num, by norm_num, by norm_num, by norm_num⟩

/-- C11 (amended): in every tick of the locally controlled vehicle whose
settings exist, for every current speed, turn input and elapsed time, `Yaw`
becomes the float sum of `Yaw` and `(d × turnSpeed(speed)) × Δt`, both products
and the sum being rounded to `float`, where `d` is `turnInput` when the current
speed is positive and `−turnInput` when it is zero or negative; so `Yaw` changes
by exactly `d × turnSpeed(speed) × Δt` when these three operations are exact.
`turnSpeed(speed)` is the eased value computed in float arithmetic from
`|speed / (maxSpeed × 0.75)|` clamped to [0, 1], the clamped value being 1 when
`maxSpeed × 0.75` is zero. -/
theorem C11_yaw_step_follows_travel_direction (E : Engine) (p : AFGPlayer)
    (S : UFGPlayerSettings) (dt : ℚ)
    (hS : p.PlayerSettings = some S) (hl : p.IsLocallyControlled = true) :
    (0 < p.MovementVelocity →
      (p.Tick E dt).1.Yaw =
        E.FAdd p.Yaw (E.FMul (E.FMul p.Turn (TurnSpeedAt E S p.MovementVelocity)) dt)) ∧
    (p.MovementVelocity ≤ 0 →
      (p.Tick E dt).1.Yaw =
        E.FAdd p.Yaw (E.FMul (E.FMul (-p.Turn) (TurnSpeedAt E S p.MovementVelocity)) dt)) ∧
    (∀ d, d = TurnDirectionAt p.Turn p.MovementVelocity →
      E.FMul d (TurnSpeedAt E S p.MovementVelocity) = d * TurnSpeedAt E S p.MovementVelocity →
      E.FMul (d * TurnSpeedAt E S p.MovementVelocity) dt =
        d * TurnSpeedAt E S p.MovementVelocity * dt →
      E.FAdd p.Yaw (d * TurnSpeedAt E S p.MovementVelocity * dt) =
        p.Yaw + d * TurnSpeedAt E S p.MovementVelocity * dt →
      (p.Tick E dt).1.Yaw - p.Yaw = d * TurnSpeedAt E S p.MovementVelocity * dt) ∧
    TurnSpeedAt E S p.MovementVelocity =
      InterpEaseOut E 0 S.TurnSpeedDefault
        (if E.FMul S.MaxVelocity (3 / 4) = 0 then 1
          else Clamp (|E.FDiv p.MovementVelocity (E.FMul S.MaxVelocity (3 / 4))|) 0 1) 5 := by
  have h := Tick_Yaw E p S dt hS hl
  refine ⟨?_, ?_, ?_, rfl⟩
  · intro hv
    rw [h, TurnDirectionAt, if_pos hv]
  · intro hv
    have hn : ¬ p.MovementVelocity > 0 := not_lt.mpr hv
    rw [h, TurnDirectionAt, if_neg hn]
  · intro d hd h1 h2 h3
    rw [h, ← hd, h1, h2, h3]
    ring

/-- C11 (witness): the vehicle driving forwards at speed 750 and the vehicle
reversing at speed -750, both with turn input 1 and ticked for 1 s, every
operation being exact: `Yaw` changes by 90 and by -90. -/
theorem C11_yaw_step_follows_travel_direction_witness :
    (0 < forward1.MovementVelocity ∧
      (forward1.Tick engine0 1).1.Yaw =
        engine0.FAdd forward1.Yaw (engine0.FMul (engine0.FMul forward1.Turn
          (TurnSpeedAt engine0 settings0 forward1.MovementVelocity)) 1) ∧
      (forward1.Tick engine0 1).1.Yaw - forward1.Yaw =
        forward1.Turn * TurnSpeedAt engine0 settings0 forward1.MovementVelocity * 1) ∧
    (reversing1.MovementVelocity ≤ 0 ∧
      (reversing1.Tick engine0 1).1.Yaw =
        engine0.FAdd reversing1.Yaw (engine0.FMul (engine0.FMul (-reversing1.Turn)
          (TurnSpeedAt engine0 settings0 reversing1.MovementVelocity)) 1) ∧
      (reversing1.Tick engine0 1).1.Yaw - reversing1.Yaw =
        -reversing1.Turn * TurnSpeedAt engine0 settings0 reversing1.MovementVelocity * 1) :=
  ⟨⟨by norm_num [forward1],
      (C11_yaw_step_follows_travel_direction engine0 forward1 settings0 1 rfl rfl).1
        (by norm_num [forward1]),
      (C11_yaw_step_follows_travel_direction engine0 forward1 settings0 1 rfl rfl).2.2.1
        forward1.Turn (by norm_num [TurnDirectionAt, forward1]) rfl rfl rfl⟩,
    ⟨by norm_num [reversing1],
      (C11_yaw_step_follows_travel_direction engine0 reversing1 settings0 1 rfl rfl).2.1
        (by norm_num [reversing1]),
      (C11_yaw_step_follows_travel_direction engine0 reversing1 settings0 1 rfl rfl).2.2.1
        (-reversing1.Turn) (by norm_num [TurnDirectionAt, reversing1]) rfl rfl rfl⟩⟩

end FGNet
